import Mathlib

/-!
Shallow embedding of the trading-models-api feature-engineering and
ensemble-decision core, translated from the JavaScript sources
`src/utils/crypto_features.js`, `src/utils/forex_features.js` and
`src/api/predict-crypto-handler.js`.

JavaScript numbers are modelled as exact rationals extended with the
special values `NaN`, `Infinity` and `-Infinity`; the missing-value
markers `null` and `undefined` are explicit constructors.  `Math.sqrt`
is not definable on `ℚ`, so every function that can reach the `'std'`
branch of the rolling-window aggregate takes the square-root function as
an explicit parameter `sq : ℚ → ℚ`; no call site of the pipeline ever
reaches that branch, and the theorems quantify over `sq`.
-/

namespace TradingModels

/-- A JavaScript runtime value as it appears in the numeric series of this
program: `undefined`, `null`, `NaN`, `Infinity`, `-Infinity` or a finite
number (modelled as an exact rational). -/
inductive JVal where
  | undef
  | null
  | nan
  | inf
  | ninf
  | num (q : ℚ)
deriving DecidableEq, Repr

/-- The result of JavaScript `ToNumber` coercion: `NaN`, `±Infinity` or a
finite number. -/
inductive JNum where
  | nan
  | inf
  | ninf
  | fin (q : ℚ)
deriving DecidableEq, Repr

namespace JVal

/-- JavaScript `ToNumber`: `Number(undefined) = NaN`, `Number(null) = 0`. -/
def toNum : JVal → JNum
  | undef => .nan
  | null => .fin 0
  | nan => .nan
  | inf => .inf
  | ninf => .ninf
  | num q => .fin q

/-- JavaScript truthiness: `undefined`, `null`, `NaN` and `0` are falsy. -/
def truthy : JVal → Bool
  | undef => false
  | null => false
  | nan => false
  | num q => decide (q ≠ 0)
  | _ => true

end JVal

namespace JNum

/-- Reinject a coerced number into `JVal`. -/
def toJVal : JNum → JVal
  | nan => .nan
  | inf => .inf
  | ninf => .ninf
  | fin q => .num q

/-- JavaScript addition on coerced numbers (signed zeros are identified). -/
def add : JNum → JNum → JNum
  | nan, _ => nan
  | _, nan => nan
  | inf, ninf => nan
  | ninf, inf => nan
  | inf, _ => inf
  | _, inf => inf
  | ninf, _ => ninf
  | _, ninf => ninf
  | fin a, fin b => fin (a + b)

/-- JavaScript negation on coerced numbers. -/
def neg : JNum → JNum
  | nan => nan
  | inf => ninf
  | ninf => inf
  | fin q => fin (-q)

/-- JavaScript multiplication on coerced numbers. -/
def mul : JNum → JNum → JNum
  | nan, _ => nan
  | _, nan => nan
  | inf, inf => inf
  | inf, ninf => ninf
  | ninf, inf => ninf
  | ninf, ninf => inf
  | inf, fin b => if b = 0 then nan else if 0 < b then inf else ninf
  | fin a, inf => if a = 0 then nan else if 0 < a then inf else ninf
  | ninf, fin b => if b = 0 then nan else if 0 < b then ninf else inf
  | fin a, ninf => if a = 0 then nan else if 0 < a then ninf else inf
  | fin a, fin b => fin (a * b)

/-- JavaScript division on coerced numbers (`0` is treated as `+0`, so
`q / 0` is `Infinity` for positive `q` and `-Infinity` for negative `q`,
and `0 / 0` is `NaN`). -/
def div : JNum → JNum → JNum
  | nan, _ => nan
  | _, nan => nan
  | inf, inf => nan
  | inf, ninf => nan
  | ninf, inf => nan
  | ninf, ninf => nan
  | inf, fin b => if 0 ≤ b then inf else ninf
  | ninf, fin b => if 0 ≤ b then ninf else inf
  | fin _, inf => fin 0
  | fin _, ninf => fin 0
  | fin a, fin b =>
    if b = 0 then (if a = 0 then nan else if 0 < a then inf else ninf)
    else fin (a / b)

/-- JavaScript `<` on coerced numbers: any comparison with `NaN` is false. -/
def lt : JNum → JNum → Bool
  | nan, _ => false
  | _, nan => false
  | inf, _ => false
  | _, inf => true
  | ninf, ninf => false
  | ninf, _ => true
  | _, ninf => false
  | fin a, fin b => decide (a < b)

/-- JavaScript `<=` on coerced numbers: any comparison with `NaN` is false. -/
def le : JNum → JNum → Bool
  | nan, _ => false
  | _, nan => false
  | ninf, _ => true
  | _, ninf => false
  | _, inf => true
  | inf, _ => false
  | fin a, fin b => decide (a ≤ b)

/-- Binary `Math.max` on coerced numbers. -/
def max2 : JNum → JNum → JNum
  | nan, _ => nan
  | _, nan => nan
  | inf, _ => inf
  | _, inf => inf
  | ninf, b => b
  | a, ninf => a
  | fin a, fin b => fin (max a b)

/-- Binary `Math.min` on coerced numbers. -/
def min2 : JNum → JNum → JNum
  | nan, _ => nan
  | _, nan => nan
  | ninf, _ => ninf
  | _, ninf => ninf
  | inf, b => b
  | a, inf => a
  | fin a, fin b => fin (min a b)

end JNum

/-- JavaScript `+` on values (numeric contexts only). -/
def jadd (a b : JVal) : JVal := (a.toNum.add b.toNum).toJVal

/-- JavaScript binary `-` on values. -/
def jsub (a b : JVal) : JVal := (a.toNum.add b.toNum.neg).toJVal

/-- JavaScript `*` on values. -/
def jmul (a b : JVal) : JVal := (a.toNum.mul b.toNum).toJVal

/-- JavaScript `/` on values. -/
def jdiv (a b : JVal) : JVal := (a.toNum.div b.toNum).toJVal

/-- JavaScript `<` on values. -/
def jlt (a b : JVal) : Bool := a.toNum.lt b.toNum

/-- JavaScript `>` on values. -/
def jgt (a b : JVal) : Bool := b.toNum.lt a.toNum

/-- JavaScript `<=` on values. -/
def jle (a b : JVal) : Bool := a.toNum.le b.toNum

/-- JavaScript `>=` on values. -/
def jge (a b : JVal) : Bool := b.toNum.le a.toNum

/-- Binary `Math.max` on values. -/
def jmax (a b : JVal) : JVal := (a.toNum.max2 b.toNum).toJVal

/-- Binary `Math.min` on values. -/
def jmin (a b : JVal) : JVal := (a.toNum.min2 b.toNum).toJVal

/-- JavaScript `Math.abs` on values. -/
def jabs (a : JVal) : JVal :=
  match a.toNum with
  | .nan => .nan
  | .inf => .inf
  | .ninf => .inf
  | .fin q => .num |q|

/-- JavaScript `Math.sqrt` on values, with the square root on nonnegative
rationals supplied as the parameter `sq`. -/
def jsqrt (sq : ℚ → ℚ) (a : JVal) : JVal :=
  match a.toNum with
  | .nan => .nan
  | .inf => .inf
  | .ninf => .nan
  | .fin q => if q < 0 then .nan else .num (sq q)

/-- The coercing global `isNaN`. -/
def isNaNJ (a : JVal) : Bool :=
  match a.toNum with
  | .nan => true
  | _ => false

/-- The coercing global `isFinite`. -/
def isFiniteJ (a : JVal) : Bool :=
  match a.toNum with
  | .fin _ => true
  | _ => false

/-- JavaScript `||` with a default value: returns the left operand when it
is truthy and the default otherwise. -/
def jor (v d : JVal) : JVal := if v.truthy then v else d

/-- JavaScript strict equality `===` restricted to the values of this model:
structural equality except that `NaN === NaN` is false. -/
def jeq (a b : JVal) : Bool :=
  if a = JVal.nan ∨ b = JVal.nan then false else decide (a = b)

/-- JavaScript array indexing `arr[i]`: out-of-range access is `undefined`. -/
def jget (l : List JVal) (i : ℕ) : JVal := l.getD i JVal.undef

/-- JavaScript array indexing with a possibly negative index. -/
def jgetI (l : List JVal) (i : ℤ) : JVal :=
  if i < 0 then JVal.undef else l.getD i.toNat JVal.undef

/-- JavaScript `Array.prototype.indexOf`: index of the first element
strictly equal to the target, `-1` if there is none. -/
def jsIndexOf (l : List JVal) (target : JVal) : ℤ :=
  match l.findIdx? (fun v => jeq v target) with
  | some i => (i : ℤ)
  | none => -1

/-- Valid-sample predicate used by every windowed aggregate in the source:
`v !== null && !isNaN(v)`. -/
def isValidSample (v : JVal) : Bool := v ≠ JVal.null ∧ ¬ isNaNJ v

/-- `CryptoFeatureEngineer.shift(arr, periods, fillValue = null)`
(crypto_features.js lines 136-151): positive periods shift forward filling
the head, negative periods shift backward filling the tail, zero returns a
copy. -/
def shift (arr : List JVal) (periods : ℤ) (fill : JVal := .null) : List JVal :=
  if periods = 0 then arr
  else if 0 < periods then
    (List.range arr.length).map fun (i : ℕ) =>
      if (i : ℤ) ≥ periods then jget arr (i - periods.toNat) else fill
  else
    let absPeriods := periods.natAbs
    (List.range arr.length).map fun i =>
      if i < arr.length - absPeriods then jget arr (i + absPeriods) else fill

/-- The five operation strings accepted by
`CryptoFeatureEngineer.rollingWindow`. -/
inductive Op where
  | mean
  | sum
  | max
  | min
  | std
deriving DecidableEq, Repr

/-- The trailing slice of up to `window` samples ending at position `i`:
`arr.slice(Math.max(0, i - window + 1), i + 1)`. -/
def windowSlice (arr : List JVal) (window i : ℕ) : List JVal :=
  (arr.take (i + 1)).drop (i + 1 - window)

/-- One branch dispatch of `rollingWindow` on the filtered window values:
mean, sum, spread `Math.max`/`Math.min` (which fold from `-Infinity` /
`Infinity`), and population standard deviation via `Math.sqrt`. -/
def opApply (sq : ℚ → ℚ) (op : Op) (vals : List JVal) : JVal :=
  match op with
  | .mean => jdiv (vals.foldl jadd (.num 0)) (.num vals.length)
  | .sum => vals.foldl jadd (.num 0)
  | .max => vals.foldl jmax .ninf
  | .min => vals.foldl jmin .inf
  | .std =>
    let mean := jdiv (vals.foldl jadd (.num 0)) (.num vals.length)
    let variance :=
      jdiv (vals.foldl (fun a b => jadd a (jmul (jsub b mean) (jsub b mean))) (.num 0))
        (.num vals.length)
    jsqrt sq variance

/-- `CryptoFeatureEngineer.rollingWindow(arr, window, minPeriods = null,
operation = 'mean')` (crypto_features.js lines 153-178).  The effective
minimum is `minPeriods || Math.floor(window / 2)`, so an absent (or `0`)
`minPeriods` falls back to `⌊window / 2⌋` for every operation. -/
def rollingWindow (sq : ℚ → ℚ) (arr : List JVal) (window : ℕ)
    (minPeriods : Option ℕ := none) (operation : Op := .mean) : List JVal :=
  let actualMinPeriods :=
    match minPeriods with
    | some m => if m = 0 then window / 2 else m
    | none => window / 2
  (List.range arr.length).map fun i =>
    let windowVals := (windowSlice arr window i).filter isValidSample
    if windowVals.length ≥ actualMinPeriods then opApply sq operation windowVals
    else .null

/-- `CryptoFeatureEngineer.rollingMax` (crypto_features.js lines 180-182). -/
def rollingMax (sq : ℚ → ℚ) (arr : List JVal) (window : ℕ)
    (minPeriods : Option ℕ := none) : List JVal :=
  rollingWindow sq arr window minPeriods .max

/-- `CryptoFeatureEngineer.rollingMin` (crypto_features.js lines 184-186). -/
def rollingMin (sq : ℚ → ℚ) (arr : List JVal) (window : ℕ)
    (minPeriods : Option ℕ := none) : List JVal :=
  rollingWindow sq arr window minPeriods .min

/-- `CryptoFeatureEngineer.rollingSum` (crypto_features.js lines 188-190). -/
def rollingSum (sq : ℚ → ℚ) (arr : List JVal) (window : ℕ)
    (minPeriods : Option ℕ := none) : List JVal :=
  rollingWindow sq arr window minPeriods .sum

/-- `CryptoFeatureEngineer.pctChange(arr, periods = 1)` (crypto_features.js
lines 196-203): percent change against the shifted series, `null` when the
shifted value is `null`, exactly `0`, or `NaN`. -/
def pctChange (arr : List JVal) (periods : ℤ := 1) : List JVal :=
  let shifted := shift arr periods
  arr.mapIdx fun i val =>
    let prev := jget shifted i
    if prev = JVal.null ∨ prev = JVal.num 0 ∨ isNaNJ prev then JVal.null
    else jdiv (jsub val prev) prev

/-- The array-array overload of `CryptoFeatureEngineer.safeDivide`
(crypto_features.js lines 84-100), the only overload the embedded call
sites exercise: elementwise division with a fill value whenever the
denominator is `0`, `null`, or fails the coercing `isNaN` test. -/
def safeDivide (numerator denominator : List JVal) (fill : JVal := .num 0) :
    List JVal :=
  numerator.mapIdx fun i nu =>
    let de := jget denominator i
    if de ≠ JVal.num 0 ∧ de ≠ JVal.null ∧ ¬ isNaNJ de then jdiv nu de else fill

/-- The scalar clip of `CryptoFeatureEngineer.safeClip` (crypto_features.js
lines 109-126): `null` and `NaN` become `0`, then the value is clamped by
whichever bounds are present. -/
def clip1 (minVal maxVal : Option ℚ) (val : JVal) : JVal :=
  if val = JVal.null ∨ isNaNJ val then .num 0
  else
    match minVal, maxVal with
    | some lo, some hi => jmax (.num lo) (jmin (.num hi) val)
    | some lo, none => jmax (.num lo) val
    | none, some hi => jmin (.num hi) val
    | none, none => val

/-- The array overload of `CryptoFeatureEngineer.safeClip`. -/
def safeClip (values : List JVal) (minVal maxVal : Option ℚ) : List JVal :=
  values.map (clip1 minVal maxVal)

/-- `ConservativeFeatureEngineer.shift(arr, periods = 1)` (forex_features.js
lines 33-51), which always fills with `null`. -/
def forexShift (arr : List JVal) (periods : ℤ) : List JVal :=
  if periods = 0 then arr
  else if 0 < periods then
    (List.range arr.length).map fun (i : ℕ) =>
      if (i : ℤ) ≥ periods then jget arr (i - periods.toNat) else .null
  else
    let absPeriods := periods.natAbs
    (List.range arr.length).map fun i =>
      if i < arr.length - absPeriods then jget arr (i + absPeriods) else .null

/-- `ConservativeFeatureEngineer.rolling(arr, window, minPeriods = null)`
(forex_features.js lines 53-71): rolling mean whose effective minimum is
`minPeriods || window`, so an absent (or `0`) `minPeriods` falls back to
the full `window`. -/
def forexRolling (arr : List JVal) (window : ℕ)
    (minPeriods : Option ℕ := none) : List JVal :=
  let actualMinPeriods :=
    match minPeriods with
    | some m => if m = 0 then window else m
    | none => window
  (List.range arr.length).map fun i =>
    let windowVals := (windowSlice arr window i).filter isValidSample
    if windowVals.length ≥ actualMinPeriods then
      jdiv (windowVals.foldl jadd (.num 0)) (.num windowVals.length)
    else .null

/-- A Dataset: the plain JavaScript object mapping column names to series,
modelled as an association list so that key insertion order (which
`Object.keys` exposes) is preserved.  Every stored column is an array;
`dget` returning `none` models both an absent key and `undefined`. -/
abbrev Dataset := List (String × List JVal)

/-- Property read `df[k]`. -/
def dget (df : Dataset) (k : String) : Option (List JVal) :=
  (df.find? (fun kv => kv.1 = k)).map Prod.snd

/-- Property write `df[k] = v`: overwrite in place when the key exists,
append at the end of the key order otherwise. -/
def dset (df : Dataset) (k : String) (v : List JVal) : Dataset :=
  if (df.find? (fun kv => kv.1 = k)).isSome then
    df.map fun kv => if kv.1 = k then (k, v) else kv
  else df ++ [(k, v)]

/-- Property delete `delete df[k]`. -/
def ddel (df : Dataset) (k : String) : Dataset :=
  df.filter (fun kv => kv.1 ≠ k)

/-- The configuration record built in the `CryptoFeatureEngineer`
constructor (crypto_features.js lines 31-38). -/
structure Config where
  atrPeriod : ℕ
  volumeWindowSize : ℕ
  minDataPoints : ℕ
  nanThreshold : ℚ
  constantThreshold : ℚ
deriving DecidableEq, Repr

/-- The mutable state of a `CryptoFeatureEngineer` instance
(crypto_features.js lines 12-42). The two caches store only arrays: a
stored `null` is falsy in the source's cache-hit tests and therefore
behaves exactly like an absent key. -/
structure Engineer where
  featureNames : List String
  bullishFeatures : List String
  bearishFeatures : List String
  neutralFeatures : List String
  directionalClarityFeatures : List String
  problematicFeatures : List String
  cachedVolMa : List (String × List JVal)
  cachedAtr : List (String × List JVal)
  maxBullish : ℕ
  maxBearish : ℕ
  maxNeutral : ℕ
  config : Config
deriving DecidableEq, Repr

/-- A fresh `new CryptoFeatureEngineer()` with the default configuration. -/
def initEngineer : Engineer where
  featureNames := []
  bullishFeatures := []
  bearishFeatures := []
  neutralFeatures := []
  directionalClarityFeatures := []
  problematicFeatures := []
  cachedVolMa := []
  cachedAtr := []
  maxBullish := 15
  maxBearish := 15
  maxNeutral := 20
  config :=
    { atrPeriod := 14
      volumeWindowSize := 24
      minDataPoints := 50
      nanThreshold := 1 / 10
      constantThreshold := 1 / 50 }

/-- Cache lookup. -/
def cacheGet (cache : List (String × List JVal)) (k : String) :
    Option (List JVal) :=
  (cache.find? (fun kv => kv.1 = k)).map Prod.snd

/-- Cache store. -/
def cacheSet (cache : List (String × List JVal)) (k : String)
    (v : List JVal) : List (String × List JVal) :=
  if (cache.find? (fun kv => kv.1 = k)).isSome then
    cache.map fun kv => if kv.1 = k then (k, v) else kv
  else cache ++ [(k, v)]

/-- `CryptoFeatureEngineer.prototype.clearCache` (crypto_features.js lines
344-347). -/
def clearCache (e : Engineer) : Engineer :=
  { e with cachedVolMa := [], cachedAtr := [] }

/-- `_canAddBullish` (crypto_features.js lines 316-318). -/
def canAddBullish (e : Engineer) : Bool :=
  e.bullishFeatures.length < e.maxBullish

/-- `_canAddBearish` (crypto_features.js lines 320-322). -/
def canAddBearish (e : Engineer) : Bool :=
  e.bearishFeatures.length < e.maxBearish

/-- `_canAddNeutral` (crypto_features.js lines 324-326). -/
def canAddNeutral (e : Engineer) : Bool :=
  e.neutralFeatures.length < e.maxNeutral

/-- Per-field validation messages of `_validateData` (crypto_features.js
lines 55-78).  In this model every stored column is an array, so the
`!Array.isArray(df[field])` branch is vacuous; a field contributes a
message when the key is absent or the column is shorter than
`config.minDataPoints`. -/
def fieldErrors (cfg : Config) (df : Dataset) (field : String) : List String :=
  match dget df field with
  | none => ["Missing required field: " ++ field]
  | some col =>
    if col.length < cfg.minDataPoints then
      ["Field " ++ field ++ " has insufficient data: " ++ toString col.length ++
        " < " ++ toString cfg.minDataPoints]
    else []

/-- All validation messages collected by `_validateData` over the required
fields, in order. -/
def validationErrors (cfg : Config) (df : Dataset)
    (requiredFields : List String) : List String :=
  requiredFields.flatMap (fieldErrors cfg df)

/-- `_validateData(df, requiredFields)` (crypto_features.js lines 55-78):
throws `Data validation failed: ...` joining the collected messages with
"; " when any check fails. -/
def validateData (cfg : Config) (df : Dataset)
    (requiredFields : List String) : Except String Unit :=
  let errors := validationErrors cfg df requiredFields
  if errors.length > 0 then
    .error ("Data validation failed: " ++ String.intercalate "; " errors)
  else .ok ()

/-- `_safeClv(high, low, close)` (crypto_features.js lines 301-314): safe
Close Location Value with `|| 0` coercions and a safe division. -/
def safeClv (high low close : List JVal) : List JVal :=
  let numerator := high.mapIdx fun i h =>
    let hVal := jor h (.num 0)
    let lVal := jor (jget low i) (.num 0)
    let cVal := jor (jget close i) (.num 0)
    jsub (jsub cVal lVal) (jsub hVal cVal)
  let denominator := high.mapIdx fun i h =>
    jsub (jor h (.num 0)) (jor (jget low i) (.num 0))
  safeDivide numerator denominator (.num 0)

/-- `_addBasicFeatures(df)` (crypto_features.js lines 209-243): per
timeframe, when all four OHLC columns are present, attach the return,
range and body-ratio columns. -/
def addBasicFeaturesTf (df : Dataset) (tf : String) : Dataset :=
  let cols := [tf ++ "_open", tf ++ "_high", tf ++ "_low", tf ++ "_close"]
  if cols.all (fun c => (dget df c).isSome) then
    let o := (dget df (tf ++ "_open")).getD []
    let h := (dget df (tf ++ "_high")).getD []
    let l := (dget df (tf ++ "_low")).getD []
    let c := (dget df (tf ++ "_close")).getD []
    let df := dset df (tf ++ "_return")
      (safeDivide (c.mapIdx fun i val => jsub val (jget o i)) o)
    let df := dset df (tf ++ "_range")
      (safeDivide (h.mapIdx fun i val => jsub val (jget l i)) c)
    let df := dset df (tf ++ "_body_ratio")
      (safeDivide (c.mapIdx fun i val => jabs (jsub val (jget o i)))
        (h.mapIdx fun i val => jsub val (jget l i)))
    df
  else df

/-- The timeframe loop of `_addBasicFeatures`. -/
def addBasicFeatures (df : Dataset) : Dataset :=
  ["1h", "4h", "1d"].foldl addBasicFeaturesTf df

/-- `_calculateAtr(df, tf, period)` (crypto_features.js lines 245-282):
cached ATR, `none` standing for the `null` returned when the HLC columns
are missing. -/
def calculateAtr (sq : ℚ → ℚ) (e : Engineer) (df : Dataset) (tf : String)
    (period : ℕ) : Option (List JVal) × Engineer :=
  let cacheKey := tf ++ "_atr_" ++ toString period
  match cacheGet e.cachedAtr cacheKey with
  | some cached => (some cached, e)
  | none =>
    if (dget df (tf ++ "_high")).isSome ∧ (dget df (tf ++ "_low")).isSome ∧
        (dget df (tf ++ "_close")).isSome then
      let high := (dget df (tf ++ "_high")).getD []
      let low := (dget df (tf ++ "_low")).getD []
      let close := (dget df (tf ++ "_close")).getD []
      let closePrev := shift close 1
      let tr := high.mapIdx fun i h =>
        if h = JVal.null ∨ jget low i = JVal.null then JVal.null
        else
          let l := jget low i
          let cp := jget closePrev i
          if cp = JVal.null then jsub h l
          else jmax (jsub h l) (jmax (jabs (jsub h cp)) (jabs (jsub l cp)))
      let atr := rollingWindow sq tr period (some (Max.max 1 (period / 2)))
      (some atr, { e with cachedAtr := cacheSet e.cachedAtr cacheKey atr })
    else (none, e)

/-- `_calculateVolumeMa(df, tf = '1h', window = 24)` (crypto_features.js
lines 284-299): cached rolling volume mean with explicit
`minPeriods = Math.floor(window / 2)`; `none` models the `null` stored and
returned when the volume column is missing (a stored `null` is falsy at
the cache-hit test, so not storing it is behaviourally identical). -/
def calculateVolumeMa (sq : ℚ → ℚ) (e : Engineer) (df : Dataset)
    (tf : String) (window : ℕ) : Option (List JVal) × Engineer :=
  let cacheKey := tf ++ "_vol_ma_" ++ toString window
  match cacheGet e.cachedVolMa cacheKey with
  | some cached => (some cached, e)
  | none =>
    match dget df (tf ++ "_volume") with
    | some vol =>
      let volMa := rollingWindow sq vol window (some (window / 2))
      (some volMa, { e with cachedVolMa := cacheSet e.cachedVolMa cacheKey volMa })
    | none => (none, e)

/-- One bullish candidate block of `addDirectionalFeatures`: the column is
attached and the name pushed only when `_canAddBullish()` and the column
presence guard both hold.  Every computation inside the source's `try` is
total in this model, so the `catch` branch is unreachable. -/
def tryAddBullish (name : String) (present : Bool) (col : List JVal)
    (p : Engineer × Dataset) : Engineer × Dataset :=
  if canAddBullish p.1 ∧ present then
    ({ p.1 with bullishFeatures := p.1.bullishFeatures ++ [name] },
      dset p.2 name col)
  else p

/-- One bearish candidate block of `addDirectionalFeatures`, guarded by
`_canAddBearish()`. -/
def tryAddBearish (name : String) (present : Bool) (col : List JVal)
    (p : Engineer × Dataset) : Engineer × Dataset :=
  if canAddBearish p.1 ∧ present then
    ({ p.1 with bearishFeatures := p.1.bearishFeatures ++ [name] },
      dset p.2 name col)
  else p

/-- Bullish signal 1, `volume_on_breakout_up` (crypto_features.js lines
380-397). -/
def bull1 (sq : ℚ → ℚ) (volMa : Option (List JVal))
    (p : Engineer × Dataset) : Engineer × Dataset :=
  let df := p.2
  let high := (dget df "1h_high").getD []
  let volume := (dget df "1h_volume").getD []
  let past10High := rollingMax sq (shift high 1) 10 (some 5)
  let breakoutHigh := high.mapIdx fun i h =>
    if jgt h (jor (jget past10High i) (.num 0)) then JVal.num 1 else JVal.num 0
  let volSurge := safeDivide volume (volMa.getD [])
  let col := breakoutHigh.mapIdx fun i b =>
    if b.truthy then jor (jget volSurge i) (.num 0) else JVal.num 0
  tryAddBullish "volume_on_breakout_up"
    ((dget df "1h_high").isSome ∧ (dget df "1h_volume").isSome ∧ volMa.isSome)
    col p

/-- Bullish signal 2, `accumulation_volume` (crypto_features.js lines
400-415). -/
def bull2 (sq : ℚ → ℚ) (p : Engineer × Dataset) : Engineer × Dataset :=
  let df := p.2
  let volume := (dget df "1h_volume").getD []
  let clv := safeClv ((dget df "1h_high").getD []) ((dget df "1h_low").getD [])
    ((dget df "1h_close").getD [])
  let clvPositive := safeClip clv (some 0) none
  let accumulation := rollingSum sq
    (clvPositive.mapIdx fun i c =>
      jmul (jor c (.num 0)) (jor (jget volume i) (.num 0))) 24 (some 12)
  let volTotal := rollingSum sq volume 24 (some 12)
  let col := safeDivide accumulation volTotal (.num 0)
  tryAddBullish "accumulation_volume"
    ((dget df "1h_volume").isSome ∧ (dget df "1h_high").isSome ∧
      (dget df "1h_low").isSome ∧ (dget df "1h_close").isSome) col p

/-- Bullish signal 3, `support_bounce_strength` (crypto_features.js lines
418-439). -/
def bull3 (sq : ℚ → ℚ) (volMa : Option (List JVal))
    (p : Engineer × Dataset) : Engineer × Dataset :=
  let df := p.2
  let close := (dget df "1h_close").getD []
  let volume := (dget df "1h_volume").getD []
  let support := rollingMin sq ((dget df "4h_low").getD []) 20 (some 10)
  let distToSupport := safeDivide
    (close.mapIdx fun i c => jsub (jor c (.num 0)) (jor (jget support i) (.num 0)))
    support (.num 0)
  let nearSupport := distToSupport.map fun d =>
    if jge d (.num (-(2 / 100))) ∧ jle d (.num (3 / 100)) then JVal.num 1
    else JVal.num 0
  let volSurge := safeDivide volume (volMa.getD [])
  let col := nearSupport.mapIdx fun i n => jmul n (jor (jget volSurge i) (.num 0))
  tryAddBullish "support_bounce_strength"
    ((dget df "4h_low").isSome ∧ (dget df "1h_close").isSome ∧
      (dget df "1h_volume").isSome ∧ volMa.isSome) col p

/-- Bullish signal 4, `bullish_momentum_1h` (crypto_features.js lines
442-450). -/
def bull4 (p : Engineer × Dataset) : Engineer × Dataset :=
  let df := p.2
  let mom3h := pctChange ((dget df "1h_close").getD []) 3
  let col := safeClip mom3h (some 0) none
  tryAddBullish "bullish_momentum_1h" (dget df "1h_close").isSome col p

/-- Bullish signal 5, `bullish_momentum_4h` (crypto_features.js lines
453-461). -/
def bull5 (p : Engineer × Dataset) : Engineer × Dataset :=
  let df := p.2
  let mom12h := pctChange ((dget df "4h_close").getD []) 3
  let col := safeClip mom12h (some 0) none
  tryAddBullish "bullish_momentum_4h" (dget df "4h_close").isSome col p

/-- Bullish signal 6, `higher_highs` (crypto_features.js lines 464-477). -/
def bull6 (p : Engineer × Dataset) : Engineer × Dataset :=
  let df := p.2
  let high := (dget df "1h_high").getD []
  let shift1 := shift high 1
  let shift2 := shift high 2
  let col := high.mapIdx fun i h =>
    if jgt h (jor (jget shift1 i) .ninf) ∧
        jgt (jor (jget shift1 i) .ninf) (jor (jget shift2 i) .ninf) then
      JVal.num 1
    else JVal.num 0
  tryAddBullish "higher_highs" (dget df "1h_high").isSome col p

/-- Bullish signal 7, `bullish_body_strength` (crypto_features.js lines
480-498). -/
def bull7 (p : Engineer × Dataset) : Engineer × Dataset :=
  let df := p.2
  let o := (dget df "1h_open").getD []
  let c := (dget df "1h_close").getD []
  let h := (dget df "1h_high").getD []
  let l := (dget df "1h_low").getD []
  let bullishCandle := c.mapIdx fun i cv =>
    if jgt (jor cv (.num 0)) (jor (jget o i) (.num 0)) then JVal.num 1
    else JVal.num 0
  let bodySize := safeDivide
    (c.mapIdx fun i cv => jsub (jor cv (.num 0)) (jor (jget o i) (.num 0)))
    (h.mapIdx fun i hv => jsub (jor hv (.num 0)) (jor (jget l i) (.num 0)))
    (.num 0)
  let col := bullishCandle.mapIdx fun i bc =>
    jmul bc (jor (jget bodySize i) (.num 0))
  tryAddBullish "bullish_body_strength"
    ((dget df "1h_open").isSome ∧ (dget df "1h_close").isSome ∧
      (dget df "1h_high").isSome ∧ (dget df "1h_low").isSome) col p

/-- Bullish signal 8, `positive_volume_delta` (crypto_features.js lines
501-518). -/
def bull8 (sq : ℚ → ℚ) (p : Engineer × Dataset) : Engineer × Dataset :=
  let df := p.2
  let c := (dget df "1h_close").getD []
  let volume := (dget df "1h_volume").getD []
  let priceUp := c.mapIdx fun i cv =>
    let prev := if 0 < i then jget c (i - 1) else jor cv (.num 0)
    if jgt (jor cv (.num 0)) (jor prev (.num 0)) then JVal.num 1 else JVal.num 0
  let volMean := rollingWindow sq volume 20 (some 10)
  let volRatio := safeDivide volume volMean (.num 1)
  let col := priceUp.mapIdx fun i pv => jmul pv (jor (jget volRatio i) (.num 0))
  tryAddBullish "positive_volume_delta"
    ((dget df "1h_volume").isSome ∧ (dget df "1h_close").isSome) col p

/-- Bearish signal 1, `volume_on_breakdown` (crypto_features.js lines
523-540). -/
def bear1 (sq : ℚ → ℚ) (volMa : Option (List JVal))
    (p : Engineer × Dataset) : Engineer × Dataset :=
  let df := p.2
  let low := (dget df "1h_low").getD []
  let volume := (dget df "1h_volume").getD []
  let past10Low := rollingMin sq (shift low 1) 10 (some 5)
  let breakdownLow := low.mapIdx fun i l =>
    if jlt (jor l .inf) (jor (jget past10Low i) .inf) then JVal.num 1
    else JVal.num 0
  let volSurge := safeDivide volume (volMa.getD [])
  let col := breakdownLow.mapIdx fun i b =>
    if b.truthy then jor (jget volSurge i) (.num 0) else JVal.num 0
  tryAddBearish "volume_on_breakdown"
    ((dget df "1h_low").isSome ∧ (dget df "1h_volume").isSome ∧ volMa.isSome)
    col p

/-- Bearish signal 2, `distribution_patterns` (crypto_features.js lines
543-559). -/
def bear2 (sq : ℚ → ℚ) (p : Engineer × Dataset) : Engineer × Dataset :=
  let df := p.2
  let volume := (dget df "1h_volume").getD []
  let clv := safeClv ((dget df "1h_high").getD []) ((dget df "1h_low").getD [])
    ((dget df "1h_close").getD [])
  let clvNegative := safeClip clv none (some 0)
  let clvNegativeAbs := clvNegative.map fun v => jabs (jor v (.num 0))
  let distribution := rollingSum sq
    (clvNegativeAbs.mapIdx fun i c =>
      jmul (jor c (.num 0)) (jor (jget volume i) (.num 0))) 24 (some 12)
  let volTotal := rollingSum sq volume 24 (some 12)
  let col := safeDivide distribution volTotal (.num 0)
  tryAddBearish "distribution_patterns"
    ((dget df "1h_volume").isSome ∧ (dget df "1h_high").isSome ∧
      (dget df "1h_low").isSome ∧ (dget df "1h_close").isSome) col p

/-- Bearish signal 3, `resistance_rejection_strength` (crypto_features.js
lines 562-579). -/
def bear3 (sq : ℚ → ℚ) (volMa : Option (List JVal))
    (p : Engineer × Dataset) : Engineer × Dataset :=
  let df := p.2
  let high := (dget df "1h_high").getD []
  let close := (dget df "1h_close").getD []
  let volume := (dget df "1h_volume").getD []
  let resistance := rollingMax sq ((dget df "4h_high").getD []) 20 (some 10)
  let rejection := high.mapIdx fun i h =>
    let r := jor (jget resistance i) (.num 0)
    let c := jor (jget close i) (.num 0)
    if jgt (jor h (.num 0)) r ∧ jlt c r then JVal.num 1 else JVal.num 0
  let volSurge := safeDivide volume (volMa.getD [])
  let col := rejection.mapIdx fun i r => jmul r (jor (jget volSurge i) (.num 0))
  tryAddBearish "resistance_rejection_strength"
    ((dget df "4h_high").isSome ∧ (dget df "1h_high").isSome ∧
      (dget df "1h_close").isSome ∧ (dget df "1h_volume").isSome ∧
      volMa.isSome) col p

/-- Bearish signal 4, `bearish_momentum_1h` (crypto_features.js lines
582-590). -/
def bear4 (p : Engineer × Dataset) : Engineer × Dataset :=
  let df := p.2
  let mom3h := pctChange ((dget df "1h_close").getD []) 3
  let col := (safeClip mom3h none (some 0)).map fun v => jabs (jor v (.num 0))
  tryAddBearish "bearish_momentum_1h" (dget df "1h_close").isSome col p

/-- Bearish signal 5, `bearish_momentum_4h` (crypto_features.js lines
593-601). -/
def bear5 (p : Engineer × Dataset) : Engineer × Dataset :=
  let df := p.2
  let mom12h := pctChange ((dget df "4h_close").getD []) 3
  let col := (safeClip mom12h none (some 0)).map fun v => jabs (jor v (.num 0))
  tryAddBearish "bearish_momentum_4h" (dget df "4h_close").isSome col p

/-- Bearish signal 6, `lower_lows` (crypto_features.js lines 604-617). -/
def bear6 (p : Engineer × Dataset) : Engineer × Dataset :=
  let df := p.2
  let low := (dget df "1h_low").getD []
  let shift1 := shift low 1
  let shift2 := shift low 2
  let col := low.mapIdx fun i l =>
    if jlt (jor l .inf) (jor (jget shift1 i) .inf) ∧
        jlt (jor (jget shift1 i) .inf) (jor (jget shift2 i) .inf) then
      JVal.num 1
    else JVal.num 0
  tryAddBearish "lower_lows" (dget df "1h_low").isSome col p

/-- Bearish signal 7, `bearish_body_strength` (crypto_features.js lines
620-638). -/
def bear7 (p : Engineer × Dataset) : Engineer × Dataset :=
  let df := p.2
  let o := (dget df "1h_open").getD []
  let c := (dget df "1h_close").getD []
  let h := (dget df "1h_high").getD []
  let l := (dget df "1h_low").getD []
  let bearishCandle := c.mapIdx fun i cv =>
    if jlt (jor cv (.num 0)) (jor (jget o i) (.num 0)) then JVal.num 1
    else JVal.num 0
  let bodySize := safeDivide
    (o.mapIdx fun i ov => jsub (jor ov (.num 0)) (jor (jget c i) (.num 0)))
    (h.mapIdx fun i hv => jsub (jor hv (.num 0)) (jor (jget l i) (.num 0)))
    (.num 0)
  let col := bearishCandle.mapIdx fun i bc =>
    jmul bc (jor (jget bodySize i) (.num 0))
  tryAddBearish "bearish_body_strength"
    ((dget df "1h_open").isSome ∧ (dget df "1h_close").isSome ∧
      (dget df "1h_high").isSome ∧ (dget df "1h_low").isSome) col p

/-- Bearish signal 8, `negative_volume_delta` (crypto_features.js lines
641-658). -/
def bear8 (sq : ℚ → ℚ) (p : Engineer × Dataset) : Engineer × Dataset :=
  let df := p.2
  let c := (dget df "1h_close").getD []
  let volume := (dget df "1h_volume").getD []
  let priceDown := c.mapIdx fun i cv =>
    let prev := if 0 < i then jget c (i - 1) else jor cv (.num 0)
    if jlt (jor cv (.num 0)) (jor prev (.num 0)) then JVal.num 1 else JVal.num 0
  let volMean := rollingWindow sq volume 20 (some 10)
  let volRatio := safeDivide volume volMean (.num 1)
  let col := priceDown.mapIdx fun i pv => jmul pv (jor (jget volRatio i) (.num 0))
  tryAddBearish "negative_volume_delta"
    ((dget df "1h_volume").isSome ∧ (dget df "1h_close").isSome) col p

/-- `addDirectionalFeatures(df)` (crypto_features.js lines 366-672): the
volume moving average is computed (and cached) first, then the eight
bullish and eight bearish candidate blocks run in source order. -/
def addDirectionalFeatures (sq : ℚ → ℚ) (e : Engineer) (df : Dataset) :
    Engineer × Dataset :=
  let r := calculateVolumeMa sq e df "1h" 24
  let volMa := r.1
  let p := (r.2, df)
  let p := bull1 sq volMa p
  let p := bull2 sq p
  let p := bull3 sq volMa p
  let p := bull4 p
  let p := bull5 p
  let p := bull6 p
  let p := bull7 p
  let p := bull8 sq p
  let p := bear1 sq volMa p
  let p := bear2 sq p
  let p := bear3 sq volMa p
  let p := bear4 p
  let p := bear5 p
  let p := bear6 p
  let p := bear7 p
  let p := bear8 sq p
  p

/-- The min-max `normalize` closure of `addDirectionalClarityFeatures`
(crypto_features.js lines 740-747). -/
def normalizeSeries (arr : List JVal) : List JVal :=
  let valid := arr.filter isValidSample
  if valid.length = 0 then arr.map fun _ => JVal.num 0
  else
    let mn := valid.foldl jmin .inf
    let mx := valid.foldl jmax .ninf
    if jeq mx mn then arr.map fun _ => JVal.num 0
    else arr.map fun v => jdiv (jsub (jor v (.num 0)) mn) (jsub mx mn)

/-- The per-position group average of a list of normalized score series,
iterated over the indices of the first series (crypto_features.js lines
752-758). -/
def groupScore (scores : List (List JVal)) : List JVal :=
  (scores.headD []).mapIdx fun i _ =>
    jdiv (scores.foldl (fun s arr => jadd s (jor (jget arr i) (.num 0))) (.num 0))
      (.num scores.length)

/-- Clarity block 1, `directional_clarity` and `directional_bias`
(crypto_features.js lines 734-775). -/
def clarityBlock1 (p : Engineer × Dataset) : Engineer × Dataset :=
  let (e, df) := p
  if e.bullishFeatures.length > 0 ∧ e.bearishFeatures.length > 0 then
    let bullishCols := e.bullishFeatures.filter fun f => (dget df f).isSome
    let bearishCols := e.bearishFeatures.filter fun f => (dget df f).isSome
    if bullishCols.length > 0 ∧ bearishCols.length > 0 then
      let bullishScore := groupScore
        (bullishCols.map fun col => normalizeSeries ((dget df col).getD []))
      let bearishScore := groupScore
        (bearishCols.map fun col => normalizeSeries ((dget df col).getD []))
      let clarity := bullishScore.mapIdx fun i b =>
        jabs (jsub (jor b (.num 0)) (jor (jget bearishScore i) (.num 0)))
      let bias := bullishScore.mapIdx fun i b =>
        jsub (jor b (.num 0)) (jor (jget bearishScore i) (.num 0))
      let df := dset df "directional_clarity" clarity
      let df := dset df "directional_bias" bias
      ({ e with directionalClarityFeatures :=
          e.directionalClarityFeatures ++ ["directional_clarity", "directional_bias"] },
        df)
    else p
  else p

/-- Clarity block 2, `trend_consistency` (crypto_features.js lines
778-798). -/
def clarityBlock2 (p : Engineer × Dataset) : Engineer × Dataset :=
  let (e, df) := p
  if (dget df "1h_close").isSome ∧ (dget df "4h_close").isSome ∧
      (dget df "1d_close").isSome then
    let h1Mom := pctChange ((dget df "1h_close").getD []) 3
    let h4Mom := pctChange ((dget df "4h_close").getD []) 1
    let d1Mom := pctChange ((dget df "1d_close").getD []) 1
    let sameSign1h4h := h1Mom.mapIdx fun i h1 =>
      if jgt (jor h1 (.num 0)) (.num 0) = jgt (jor (jget h4Mom i) (.num 0)) (.num 0)
      then JVal.num 1 else JVal.num 0
    let sameSign4h1d := h4Mom.mapIdx fun i h4 =>
      if jgt (jor h4 (.num 0)) (.num 0) = jgt (jor (jget d1Mom i) (.num 0)) (.num 0)
      then JVal.num 1 else JVal.num 0
    let col := sameSign1h4h.mapIdx fun i s1 =>
      jdiv (jadd (jor s1 (.num 0)) (jor (jget sameSign4h1d i) (.num 0))) (.num 2)
    ({ e with directionalClarityFeatures :=
        e.directionalClarityFeatures ++ ["trend_consistency"] },
      dset df "trend_consistency" col)
  else p

/-- Clarity block 3, `choppiness_index`, pushed onto the NEUTRAL list
(crypto_features.js lines 801-814). -/
def clarityBlock3 (p : Engineer × Dataset) : Engineer × Dataset :=
  let (e, df) := p
  if (dget df "1h_close").isSome ∧ (dget df "1h_atr").isSome then
    let mom := (pctChange ((dget df "1h_close").getD []) 3).map fun v =>
      jabs (jor v (.num 0))
    let vol := safeDivide ((dget df "1h_atr").getD [])
      ((dget df "1h_close").getD []) (.num 0)
    let col := (safeDivide mom vol (.num 0)).map fun v =>
      (safeClip [jsub (.num 1) v] (some 0) (some 1)).headD .undef
    ({ e with neutralFeatures := e.neutralFeatures ++ ["choppiness_index"] },
      dset df "choppiness_index" col)
  else p

/-- Clarity block 4, `range_compression`, pushed onto the NEUTRAL list
(crypto_features.js lines 817-831). -/
def clarityBlock4 (sq : ℚ → ℚ) (p : Engineer × Dataset) : Engineer × Dataset :=
  let (e, df) := p
  if (dget df "1h_high").isSome ∧ (dget df "1h_low").isSome ∧
      (dget df "1h_close").isSome then
    let high := (dget df "1h_high").getD []
    let low := (dget df "1h_low").getD []
    let currentRange := high.mapIdx fun i h =>
      jsub (jor h (.num 0)) (jor (jget low i) (.num 0))
    let avgRange := rollingWindow sq currentRange 24 (some 12)
    let col := (safeDivide currentRange avgRange (.num 1)).map fun v =>
      (safeClip [jsub (.num 1) v] (some 0) (some 1)).headD .undef
    ({ e with neutralFeatures := e.neutralFeatures ++ ["range_compression"] },
      dset df "range_compression" col)
  else p

/-- Clarity block 5, `sideways_movement`, pushed onto the NEUTRAL list
(crypto_features.js lines 834-846). -/
def clarityBlock5 (p : Engineer × Dataset) : Engineer × Dataset :=
  let (e, df) := p
  if (dget df "1h_close").isSome then
    let priceChange := (pctChange ((dget df "1h_close").getD []) 10).map fun v =>
      jabs (jor v (.num 0))
    let col := priceChange.map fun pc =>
      jdiv (.num 1) (jadd (.num 1) (jmul (jor pc (.num 0)) (.num 100)))
    ({ e with neutralFeatures := e.neutralFeatures ++ ["sideways_movement"] },
      dset df "sideways_movement" col)
  else p

/-- `addDirectionalClarityFeatures(df)` (crypto_features.js lines
723-852). -/
def addDirectionalClarityFeatures (sq : ℚ → ℚ) (e : Engineer)
    (df : Dataset) : Engineer × Dataset :=
  clarityBlock5 (clarityBlock4 sq (clarityBlock3 (clarityBlock2 (clarityBlock1 (e, df)))))

/-- Context block 1, `vol_regime` (crypto_features.js lines 868-891):
ATR-percentile bucket over a trailing 168-bar lookback. -/
def contextBlock1 (p : Engineer × Dataset) : Engineer × Dataset :=
  let (e, df) := p
  if (dget df "1h_atr").isSome ∧ canAddNeutral e then
    let atr := (dget df "1h_atr").getD []
    let atrPercentile := atr.mapIdx fun i val =>
      if i < 50 then JVal.num (1 / 2)
      else
        let window := ((atr.take i).drop (i - 168)).filter isValidSample
        if window.length < 10 then JVal.num (1 / 2)
        else
          let belowCount := (window.filter fun v => jlt v (jor val (.num 0))).length
          jdiv (.num belowCount) (.num window.length)
    let col := atrPercentile.map fun pv =>
      if jle pv (.num (25 / 100)) then JVal.num 0
      else if jle pv (.num (5 / 10)) then JVal.num 1
      else if jle pv (.num (75 / 100)) then JVal.num 2
      else JVal.num 3
    ({ e with neutralFeatures := e.neutralFeatures ++ ["vol_regime"] },
      dset df "vol_regime" col)
  else p

/-- Context block 2, `volume_regime` (crypto_features.js lines 894-909);
the volume moving average is re-requested through the instance cache. -/
def contextBlock2 (sq : ℚ → ℚ) (p : Engineer × Dataset) : Engineer × Dataset :=
  let (volMa, e) := calculateVolumeMa sq p.1 p.2 "1h" 24
  let df := p.2
  if volMa.isSome ∧ canAddNeutral e then
    let volSurge := safeDivide ((dget df "1h_volume").getD []) (volMa.getD [])
    let col := volSurge.map fun v =>
      if jle (jor v (.num 0)) (.num (8 / 10)) then JVal.num 0
      else if jle (jor v (.num 0)) (.num (12 / 10)) then JVal.num 1
      else if jle (jor v (.num 0)) (.num 2) then JVal.num 2
      else JVal.num 3
    ({ e with neutralFeatures := e.neutralFeatures ++ ["volume_regime"] },
      dset df "volume_regime" col)
  else (e, df)

/-- Context block 3, `range_expansion_ratio` (crypto_features.js lines
912-926). -/
def contextBlock3 (sq : ℚ → ℚ) (p : Engineer × Dataset) : Engineer × Dataset :=
  let (e, df) := p
  if (dget df "1h_high").isSome ∧ (dget df "1h_low").isSome ∧
      canAddNeutral e then
    let high := (dget df "1h_high").getD []
    let low := (dget df "1h_low").getD []
    let currentRange := high.mapIdx fun i h =>
      jsub (jor h (.num 0)) (jor (jget low i) (.num 0))
    let avgRange := rollingWindow sq currentRange 24 (some 12)
    let col := safeDivide currentRange avgRange (.num 1)
    ({ e with neutralFeatures := e.neutralFeatures ++ ["range_expansion_ratio"] },
      dset df "range_expansion_ratio" col)
  else p

/-- Context block 4, `price_ma_distance` (crypto_features.js lines
929-943). -/
def contextBlock4 (sq : ℚ → ℚ) (p : Engineer × Dataset) : Engineer × Dataset :=
  let (e, df) := p
  if (dget df "1h_close").isSome ∧ canAddNeutral e then
    let close := (dget df "1h_close").getD []
    let ma20 := rollingWindow sq close 20 (some 10)
    let distFromMa := safeDivide
      (close.mapIdx fun i c => jabs (jsub (jor c (.num 0)) (jor (jget ma20 i) (.num 0))))
      ma20 (.num 0)
    ({ e with neutralFeatures := e.neutralFeatures ++ ["price_ma_distance"] },
      dset df "price_ma_distance" distFromMa)
  else p

/-- `addMinimalContextFeatures(df)` (crypto_features.js lines 858-949). -/
def addMinimalContextFeatures (sq : ℚ → ℚ) (e : Engineer) (df : Dataset) :
    Engineer × Dataset :=
  contextBlock4 sq (contextBlock3 sq (contextBlock2 sq (contextBlock1 (e, df))))

/-- `enforceDirectionalBalance()` (crypto_features.js lines 678-705): drop
the excess from the end of the longer of the two directional lists, and
return the removed names. -/
def enforceDirectionalBalance (e : Engineer) : Engineer × List String :=
  let nBullish := e.bullishFeatures.length
  let nBearish := e.bearishFeatures.length
  if nBullish > nBearish then
    let excess := nBullish - nBearish
    let toRemove := e.bullishFeatures.drop (nBullish - excess)
    ({ e with bullishFeatures := e.bullishFeatures.take (nBullish - excess) },
      toRemove)
  else if nBearish > nBullish then
    let excess := nBearish - nBullish
    let toRemove := e.bearishFeatures.drop (nBearish - excess)
    ({ e with bearishFeatures := e.bearishFeatures.take (nBearish - excess) },
      toRemove)
  else (e, [])

/-- The in-place repair of non-finite values (crypto_features.js lines
997-1011): forward-fill from the nearest earlier finite non-null sample of
the ORIGINAL series, then backward-fill, then `0`.  The coercing
`isFinite` treats `null` as finite, so `null` entries are kept. -/
def repairSeries (series : List JVal) : List JVal :=
  series.mapIdx fun i v =>
    if ¬ isFiniteJ v then
      match (series.take i).reverse.find? (fun x => isFiniteJ x ∧ x ≠ JVal.null) with
      | some x => x
      | none =>
        match (series.drop (i + 1)).find? (fun x => isFiniteJ x ∧ x ≠ JVal.null) with
        | some x => x
        | none => JVal.num 0
    else v

/-- One iteration of the quality loop of `checkFeatureQuality`
(crypto_features.js lines 964-1012) for a single feature name, threading
the problematic list and the dataset.  The percentage figures interpolated
into the reason strings by the source are elided (only the name before the
first space is ever consumed again, by `p.split(' ')[0]`). -/
def qualityStep (cfg : Config) (totalRows : ℕ)
    (acc : List String × Dataset) (feat : String) : List String × Dataset :=
  let (problematic, df) := acc
  match dget df feat with
  | none => (problematic ++ [feat ++ " (missing)"], df)
  | some series =>
    let nanCount := (series.filter fun v => v = JVal.null ∨ isNaNJ v).length
    let nanPct := jdiv (.num nanCount) (.num totalRows)
    if jgt nanPct (.num cfg.nanThreshold) then
      (problematic ++ [feat ++ " (NaN)"], df)
    else if ((series.filter isValidSample).dedup).length ≤ 1 then
      (problematic ++ [feat ++ " (constant)"], df)
    else
      let zeroCount := (series.filter fun v => v = JVal.num 0).length
      let zeroPct := jdiv (.num zeroCount) (.num totalRows)
      if jgt zeroPct (.num (95 / 100)) then
        (problematic ++ [feat ++ " (mostly zeros)"], df)
      else if series.any (fun v => ¬ isFiniteJ v ∧ v ≠ JVal.null) then
        (problematic, dset df feat (repairSeries series))
      else (problematic, df)

/-- The name before the first space of a problematic entry,
`p.split(' ')[0]` (crypto_features.js line 1016), computed structurally on
the character list. -/
def problematicName (p : String) : String :=
  String.mk (p.data.takeWhile (fun c => c ≠ ' '))

/-- `checkFeatureQuality(df)` (crypto_features.js lines 955-1029): reject
features that are missing, too null-heavy, constant, or mostly zero, and
repair non-finite values of the surviving ones; names failing any check
are filtered out of all five name lists.  Reading `totalRows` off the
first array column of an empty dataset throws a `TypeError`. -/
def checkFeatureQuality (e : Engineer) (df : Dataset) :
    Except String (Engineer × Dataset) :=
  match df with
  | [] => .error "TypeError: Cannot read properties of undefined"
  | (_, firstCol) :: _ =>
    let totalRows := firstCol.length
    let (problematic, df) :=
      e.featureNames.foldl (qualityStep e.config totalRows) ([], df)
    if problematic.length > 0 then
      let problematicNames := problematic.map problematicName
      .ok ({ e with
        featureNames := e.featureNames.filter (fun f => ¬ problematicNames.contains f)
        bullishFeatures := e.bullishFeatures.filter (fun f => ¬ problematicNames.contains f)
        bearishFeatures := e.bearishFeatures.filter (fun f => ¬ problematicNames.contains f)
        neutralFeatures := e.neutralFeatures.filter (fun f => ¬ problematicNames.contains f)
        directionalClarityFeatures :=
          e.directionalClarityFeatures.filter (fun f => ¬ problematicNames.contains f)
        problematicFeatures := problematic }, df)
    else .ok (e, df)

/-- Deduplication with JavaScript `new Set(...)` semantics: first
occurrences are kept, in order. -/
def jsDedup (l : List String) : List String :=
  l.foldl (fun acc x => if acc.contains x then acc else acc ++ [x]) []

/-- The ATR step of the pipeline (crypto_features.js lines 1062-1067): per
timeframe, when the HLC columns are present, attach the cached ATR
column. -/
def atrStep (sq : ℚ → ℚ) (tf : String) (p : Engineer × Dataset) :
    Engineer × Dataset :=
  let (e, df) := p
  if (dget df (tf ++ "_high")).isSome ∧ (dget df (tf ++ "_low")).isSome ∧
      (dget df (tf ++ "_close")).isSome then
    let (atr, e) := calculateAtr sq e df tf e.config.atrPeriod
    (e, dset df (tf ++ "_atr") (atr.getD []))
  else p

/-- `engineerFeatures(df, symbol)` (crypto_features.js lines 1035-1134):
the main pipeline.  Caches are cleared first; validation of the required
raw fields `1h_close` and `1h_volume` runs before any feature is computed
and aborts the pipeline with the thrown validation error. -/
def engineerFeatures (sq : ℚ → ℚ) (e : Engineer) (df : Dataset) :
    Except String (Engineer × Dataset) :=
  let e := clearCache e
  match validateData e.config df ["1h_close", "1h_volume"] with
  | .error msg => .error msg
  | .ok _ =>
    let df := addBasicFeatures df
    let (e, df) := atrStep sq "1d" (atrStep sq "4h" (atrStep sq "1h" (e, df)))
    let (e, df) := addDirectionalFeatures sq e df
    let (e, df) := addDirectionalClarityFeatures sq e df
    let (e, df) := addMinimalContextFeatures sq e df
    let allFeatures := e.bullishFeatures ++ e.bearishFeatures ++
      e.neutralFeatures ++ e.directionalClarityFeatures
    let e := { e with featureNames := jsDedup allFeatures }
    let (e, removed) := enforceDirectionalBalance e
    let df := if removed.length > 0 then removed.foldl ddel df else df
    let e :=
      if removed.length > 0 then
        { e with featureNames := e.featureNames.filter (fun f => ¬ removed.contains f) }
      else e
    checkFeatureQuality e df

/-- `getFeatureList()` (crypto_features.js lines 1140-1142). -/
def getFeatureList (e : Engineer) : List String := e.featureNames

/-- The record literal `getBalanceReport` is meant to return
(crypto_features.js lines 1153-1168). -/
structure BalanceReport where
  total_features : ℕ
  bullish_count : ℕ
  bearish_count : ℕ
  neutral_count : ℕ
  clarity_count : ℕ
  bullish_pct : ℚ
  bearish_pct : ℚ
  is_balanced : Bool
  balance_ratio : ℚ
deriving DecidableEq, Repr

/-- Identifiers resolvable inside the body of `getBalanceReport`: its own
local `const total` plus the module-scope bindings of crypto_features.js
(`CryptoFeatureEngineer`, `module`, `require`).  Instance fields are only
reachable through `this.` and are not identifiers. -/
def getBalanceReportScopeIdents : List String :=
  ["total", "CryptoFeatureEngineer", "module", "require"]

/-- The free identifiers of the `is_balanced` field expression
`bullCount === bearCount` (crypto_features.js line 1163).  `bullCount` and
`bearCount` are `const`s declared only inside the body of
`engineerFeatures` (lines 1113-1114) and are invisible from
`getBalanceReport`. -/
def isBalancedFieldIdents : List String := ["bullCount", "bearCount"]

/-- `getBalanceReport()` (crypto_features.js lines 1153-1168).  Evaluating
the record literal evaluates the `is_balanced` field expression, whose
identifiers must resolve in the lexical scope of the method; an
unresolvable identifier aborts the call with a `ReferenceError`. -/
def getBalanceReport (e : Engineer) : Except String BalanceReport :=
  let total := e.featureNames.length
  if isBalancedFieldIdents.all (fun v => getBalanceReportScopeIdents.contains v) then
    .ok
      { total_features := total
        bullish_count := e.bullishFeatures.length
        bearish_count := e.bearishFeatures.length
        neutral_count := e.neutralFeatures.length
        clarity_count := e.directionalClarityFeatures.length
        bullish_pct := if total > 0 then e.bullishFeatures.length / (total : ℚ) * 100 else 0
        bearish_pct := if total > 0 then e.bearishFeatures.length / (total : ℚ) * 100 else 0
        is_balanced := e.bullishFeatures.length = e.bearishFeatures.length
        balance_ratio :=
          if e.bearishFeatures.length > 0 then
            e.bullishFeatures.length / (e.bearishFeatures.length : ℚ)
          else 0 }
  else .error "ReferenceError: bullCount is not defined"

/-- `extractFeatureVector(engineeredData, featureList)`
(predict-crypto-handler.js lines 313-369): the last row index comes from
the FIRST array column in key order; each named feature contributes its
value at that row, with `0` substituted for an absent column and for a
`null`, `undefined` or non-finite value. -/
def extractFeatureVector (engineeredData : Dataset)
    (featureList : List String) : Except String (List ℚ) :=
  match engineeredData with
  | [] => .error "No array columns in engineered data"
  | (_, firstCol) :: _ =>
    if firstCol.length = 0 then .error "No data rows available"
    else
      let lastRowIndex := firstCol.length - 1
      .ok (featureList.map fun featureName =>
        match dget engineeredData featureName with
        | none => 0
        | some col =>
          match jget col lastRowIndex with
          | .null => 0
          | .undef => 0
          | .nan => 0
          | .inf => 0
          | .ninf => 0
          | .num q => q)

/-- The record returned by `ensembleCryptoPredictions`
(predict-crypto-handler.js lines 591-601).  `cls` is the JavaScript
`indexOf` result and may be `-1`; `className` is `undefined` (here `none`)
when the index is out of range; `confidence` and the probabilities are raw
JavaScript values. -/
structure EnsembleResult where
  cls : ℤ
  className : Option String
  confidence : JVal
  probDown : JVal
  probNeutral : JVal
  probUp : JVal
  modelsUsed : ℕ
deriving DecidableEq, Repr

/-- `ensembleCryptoPredictions(predictions)` (predict-crypto-handler.js
lines 555-602): throw on an empty list; otherwise average the three class
entries across all predictions (`pred[i] || 0`), renormalize by the sum,
and pick the arg-max class by `indexOf(Math.max(...))`. -/
def ensembleCryptoPredictions (predictions : List (List JVal)) :
    Except String EnsembleResult :=
  if predictions.length = 0 then .error "No predictions to ensemble"
  else
    let totals := predictions.foldl
      (fun (acc : JVal × JVal × JVal) pred =>
        (jadd acc.1 (jor (jget pred 0) (.num 0)),
          jadd acc.2.1 (jor (jget pred 1) (.num 0)),
          jadd acc.2.2 (jor (jget pred 2) (.num 0))))
      (.num 0, .num 0, .num 0)
    let n : JVal := .num predictions.length
    let e0 := jdiv totals.1 n
    let e1 := jdiv totals.2.1 n
    let e2 := jdiv totals.2.2 n
    let sum := jadd (jadd (jadd (.num 0) e0) e1) e2
    let n0 := jdiv e0 sum
    let n1 := jdiv e1 sum
    let n2 := jdiv e2 sum
    let m := jmax (jmax (jmax .ninf n0) n1) n2
    let predictedClass := jsIndexOf [n0, n1, n2] m
    let confidence := jgetI [n0, n1, n2] predictedClass
    let classNames := ["DOWN", "NEUTRAL", "UP"]
    .ok
      { cls := predictedClass
        className :=
          if 0 ≤ predictedClass then classNames.get? predictedClass.toNat
          else none
        confidence := confidence
        probDown := n0
        probNeutral := n1
        probUp := n2
        modelsUsed := predictions.length }

/-- The names of the eight bullish candidate signals of
`addDirectionalFeatures`, in source order. -/
def bullishSignalNames : List String :=
  ["volume_on_breakout_up", "accumulation_volume", "support_bounce_strength",
    "bullish_momentum_1h", "bullish_momentum_4h", "higher_highs",
    "bullish_body_strength", "positive_volume_delta"]

/-- The names of the eight bearish candidate signals of
`addDirectionalFeatures`, in source order. -/
def bearishSignalNames : List String :=
  ["volume_on_breakdown", "distribution_patterns",
    "resistance_rejection_strength", "bearish_momentum_1h",
    "bearish_momentum_4h", "lower_lows", "bearish_body_strength",
    "negative_volume_delta"]

/-- The rational values of the valid (non-null, non-NaN, finite) samples in
the trailing window, the quantity the spec's rolling-aggregate sentence
describes. -/
def windowRats (arr : List JVal) (window i : ℕ) : List ℚ :=
  (windowSlice arr window i).filterMap fun v =>
    match v with
    | .num q => some q
    | _ => none

/-- A 50-bar strictly increasing close series (bars `100 .. 149`). -/
def ceClose : List JVal := (List.range 50).map fun i => .num (100 + i)

/-- A 50-bar alternating volume series (`10, 20, 10, ...`). -/
def ceVolume : List JVal :=
  (List.range 50).map fun i => .num (if i % 2 = 0 then 10 else 20)

/-- A minimal valid input dataset: 50 samples of `1h_close` and
`1h_volume` only.  On this input every bearish signal the generator can
build (`bearish_momentum_1h`, `negative_volume_delta`) is constantly zero
because the close series is strictly increasing, while both bullish
signals vary, so the quality phase strips the bearish side only. -/
def ceDataset : Dataset := [("1h_close", ceClose), ("1h_volume", ceVolume)]

/-- A small engineer state whose single feature passes every quality
check. -/
def qWitEngineer : Engineer :=
  { initEngineer with featureNames := ["f"], bullishFeatures := ["f"] }

/-- A dataset for `qWitEngineer` on which `checkFeatureQuality` keeps
everything. -/
def qWitDataset : Dataset := [("f", [.num 1, .num 2])]

/-- An engineer already at both directional caps (15/15). -/
def capEngineer : Engineer :=
  { initEngineer with
    bullishFeatures := List.replicate 15 "b"
    bearishFeatures := List.replicate 15 "r" }

/-- A dataset with one feature column used by the determinism witness. -/
def detDataset : Dataset := [("1h_close", [.num 1, .num 2])]

/-! Theorems. -/

/-- Reading an in-range position of a tabulated list. -/
theorem getD_range_map {α : Type} (f : ℕ → α) {n i : ℕ} (h : i < n) (d : α) :
    ((List.range n).map f).getD i d = f i := by
  rw [List.getD_eq_getElem?_getD, List.getElem?_map, List.getElem?_range h]
  rfl

/-- C10: for every engineer state, `getBalanceReport` throws a
`ReferenceError` instead of returning the balance record, because the
`is_balanced` field expression `bullCount === bearCount` references
identifiers that are not in scope in that method (they are `const`s local
to `engineerFeatures`). -/
theorem c10_getBalanceReport_reference_error (e : Engineer) :
    getBalanceReport e = .error "ReferenceError: bullCount is not defined" := rfl

/-- C9: the feature-order contract is deterministic: running the pipeline
twice on equal input datasets with a fresh engineer (as the handler does
per request) produces identical results, in particular the same retained
feature-name list in the same order; and the extractor applied twice to
the same dataset and name list produces identical vectors. -/
theorem c9_pipeline_deterministic (sq : ℚ → ℚ) (d1 d2 : Dataset)
    (h : d1 = d2) :
    (engineerFeatures sq initEngineer d1 = engineerFeatures sq initEngineer d2 ∧
      ∀ s1 o1 s2 o2, engineerFeatures sq initEngineer d1 = .ok (s1, o1) →
        engineerFeatures sq initEngineer d2 = .ok (s2, o2) →
          getFeatureList s1 = getFeatureList s2) ∧
    ∀ names : List String,
      extractFeatureVector d1 names = extractFeatureVector d2 names := by
  subst h
  refine ⟨⟨rfl, ?_⟩, fun _ => rfl⟩
  intro s1 o1 s2 o2 h1 h2
  rw [h1] at h2
  cases h2
  rfl

/-- Witness for C9 at a concrete dataset. -/
theorem c9_pipeline_deterministic_witness :
    (engineerFeatures id initEngineer detDataset =
        engineerFeatures id initEngineer detDataset ∧
      ∀ s1 o1 s2 o2, engineerFeatures id initEngineer detDataset = .ok (s1, o1) →
        engineerFeatures id initEngineer detDataset = .ok (s2, o2) →
          getFeatureList s1 = getFeatureList s2) ∧
    ∀ names : List String,
      extractFeatureVector detDataset names = extractFeatureVector detDataset names :=
  c9_pipeline_deterministic id detDataset detDataset rfl

/-- C3: the Ensemble Decision Engine throws its designated error exactly on
the empty prediction list, and returns a result (never throws) on every
non-empty list.  The windowing, feature-generation and balance/quality
stages are embedded as total functions, so no per-signal condition aborts
them; only validation (C8) and the degenerate-dataset extraction paths can
raise, and neither concerns an empty ensemble input. -/
theorem c3_ensemble_empty_throws :
    ensembleCryptoPredictions [] = .error "No predictions to ensemble" ∧
    ∀ predictions : List (List JVal), predictions ≠ [] →
      ∃ r, ensembleCryptoPredictions predictions = .ok r := by
  refine ⟨rfl, ?_⟩
  intro predictions h
  have hlen : ¬ predictions.length = 0 := by
    simpa [List.length_eq_zero] using h
  unfold ensembleCryptoPredictions
  rw [if_neg hlen]
  exact ⟨_, rfl⟩

/-- Witness for C3 at a concrete non-empty prediction list. -/
theorem c3_ensemble_empty_throws_witness :
    ∃ r, ensembleCryptoPredictions [[JVal.num 1, JVal.num 0, JVal.num 0]] = .ok r :=
  c3_ensemble_empty_throws.2 [[JVal.num 1, JVal.num 0, JVal.num 0]]
    (List.cons_ne_nil _ _)

/-- C6: `shift` semantics — positive `k` yields `null` at positions
`0..k-1` and the original sample `i−k` from position `k` on; negative `k`
yields the original sample `i+|k|` before position `len−|k|` and `null`
after; `k = 0` returns the array unchanged; the two boundary examples of
the spec; and the forex `shift` agrees with the crypto `shift` everywhere. -/
theorem c6_shift_spec :
    (∀ (arr : List JVal) (k : ℤ), 0 < k →
      (shift arr k).length = arr.length ∧
      ∀ i, i < arr.length →
        (shift arr k).getD i .undef =
          if (i : ℤ) < k then JVal.null else arr.getD (i - k.toNat) .undef) ∧
    (∀ (arr : List JVal) (k : ℤ), k < 0 →
      (shift arr k).length = arr.length ∧
      ∀ i, i < arr.length →
        (shift arr k).getD i .undef =
          if i < arr.length - k.natAbs then arr.getD (i + k.natAbs) .undef
          else JVal.null) ∧
    (∀ arr : List JVal, shift arr 0 = arr) ∧
    shift [JVal.num 1, JVal.num 2, JVal.num 3, JVal.num 4] 2 =
      [JVal.null, JVal.null, JVal.num 1, JVal.num 2] ∧
    shift [JVal.num 1, JVal.num 2, JVal.num 3, JVal.num 4] (-1) =
      [JVal.num 2, JVal.num 3, JVal.num 4, JVal.null] ∧
    ∀ (arr : List JVal) (k : ℤ), forexShift arr k = shift arr k := by
  refine ⟨?_, ?_, ?_, by decide, by decide, ?_⟩
  · intro arr k hk
    have hk0 : k ≠ 0 := by omega
    constructor
    · simp [shift, hk0, hk]
    · intro i hi
      have : shift arr k =
          (List.range arr.length).map fun (j : ℕ) =>
            if (j : ℤ) ≥ k then jget arr (j - k.toNat) else JVal.null := by
        simp [shift, hk0, hk]
      rw [this, getD_range_map _ hi]
      by_cases hik : (i : ℤ) < k
      · rw [if_neg (by omega), if_pos hik]
      · rw [if_pos (by omega), if_neg hik]
        rfl
  · intro arr k hk
    have hk0 : k ≠ 0 := by omega
    have hkneg : ¬ 0 < k := by omega
    constructor
    · simp [shift, hk0, hkneg]
    · intro i hi
      have : shift arr k =
          (List.range arr.length).map fun (j : ℕ) =>
            if j < arr.length - k.natAbs then jget arr (j + k.natAbs)
            else JVal.null := by
        simp [shift, hk0, hkneg]
      rw [this, getD_range_map _ hi]
      by_cases hik : i < arr.length - k.natAbs
      · rw [if_pos hik, if_pos hik]
        rfl
      · rw [if_neg hik, if_neg hik]
  · intro arr
    simp [shift]
  · intro arr k
    unfold forexShift shift
    rfl

/-- Witness for C6 at concrete inputs for both signs of `k`. -/
theorem c6_shift_spec_witness :
    (shift [JVal.num 5, JVal.num 6] 1).getD 1 .undef =
      (if (1 : ℤ) < 1 then JVal.null
        else [JVal.num 5, JVal.num 6].getD (1 - (1 : ℤ).toNat) .undef) ∧
    (shift [JVal.num 5, JVal.num 6] (-1)).getD 0 .undef =
      (if 0 < [JVal.num 5, JVal.num 6].length - (-1 : ℤ).natAbs then
        [JVal.num 5, JVal.num 6].getD (0 + (-1 : ℤ).natAbs) .undef
      else JVal.null) :=
  ⟨(c6_shift_spec.1 [JVal.num 5, JVal.num 6] 1 (by decide)).2 1 (by decide),
    (c6_shift_spec.2.1 [JVal.num 5, JVal.num 6] (-1) (by decide)).2 0 (by decide)⟩

/-- C5 counterexample: a dataset whose FIRST array column is empty but
which contains a non-empty array column.  The claim promises a vector of
the name-list's length; the code reads the last row index off the first
array column in key order and throws `No data rows available`. -/
theorem c5_extract_counterexample :
    extractFeatureVector [("a", []), ("b", [JVal.num 1])] ["b"] =
      .error "No data rows available" := rfl

/-- C5 amended: for every dataset whose FIRST array column (in key
insertion order) is non-empty, the extractor returns a vector of the name
list's length whose i-th entry is `0` when the i-th named column is absent
or its value at the last row index (of the first column) is null,
undefined or not finite, and the numeric value otherwise. -/
theorem c5_extract_spec (k : String) (col : List JVal) (rest : Dataset)
    (names : List String) (hcol : col ≠ []) :
    ∃ v, extractFeatureVector ((k, col) :: rest) names = .ok v ∧
      v.length = names.length ∧
      ∀ i, (h : i < names.length) →
        (dget ((k, col) :: rest) (names.get ⟨i, h⟩) = none → v.getD i 0 = 0) ∧
        ∀ series, dget ((k, col) :: rest) (names.get ⟨i, h⟩) = some series →
          ((jget series (col.length - 1) = .null ∨
            jget series (col.length - 1) = .undef ∨
            isFiniteJ (jget series (col.length - 1)) = false) →
              v.getD i 0 = 0) ∧
          ∀ q : ℚ, jget series (col.length - 1) = .num q → v.getD i 0 = q := by
  have hlen : ¬ col.length = 0 := by simpa [List.length_eq_zero] using hcol
  refine ⟨names.map fun featureName =>
      match dget ((k, col) :: rest) featureName with
      | none => (0 : ℚ)
      | some c =>
        match jget c (col.length - 1) with
        | .null => 0
        | .undef => 0
        | .nan => 0
        | .inf => 0
        | .ninf => 0
        | .num q => q, ?_, by simp, ?_⟩
  · simp [extractFeatureVector, hlen]
  · intro i h
    have hv : (names.map fun featureName =>
        match dget ((k, col) :: rest) featureName with
        | none => (0 : ℚ)
        | some c =>
          match jget c (col.length - 1) with
          | .null => 0
          | .undef => 0
          | .nan => 0
          | .inf => 0
          | .ninf => 0
          | .num q => q).getD i 0 =
        match dget ((k, col) :: rest) (names.get ⟨i, h⟩) with
        | none => (0 : ℚ)
        | some c =>
          match jget c (col.length - 1) with
          | .null => 0
          | .undef => 0
          | .nan => 0
          | .inf => 0
          | .ninf => 0
          | .num q => q := by
      rw [List.getD_eq_getElem?_getD, List.getElem?_map, List.getElem?_eq_getElem h]
      rfl
    constructor
    · intro hnone
      rw [hv, hnone]
    · intro series hsome
      constructor
      · intro hbad
        cases hval : jget series (col.length - 1) with
        | undef => rw [hv, hsome]; simp [hval]
        | null => rw [hv, hsome]; simp [hval]
        | nan => rw [hv, hsome]; simp [hval]
        | inf => rw [hv, hsome]; simp [hval]
        | ninf => rw [hv, hsome]; simp [hval]
        | num q =>
          rcases hbad with hb | hb | hb <;> rw [hval] at hb <;>
            simp [isFiniteJ, JVal.toNum] at hb
      · intro q hq
        rw [hv, hsome]
        simp [hq]

/-- Witness for C5 at a concrete dataset exercising the present, missing
and non-finite cases. -/
theorem c5_extract_spec_witness :
    ∃ v, extractFeatureVector [("c", [JVal.num 7, JVal.nan])] ["c", "zz"] =
      .ok v ∧ v.length = 2 := by
  obtain ⟨v, hv, hlen, _⟩ :=
    c5_extract_spec "c" [JVal.num 7, JVal.nan] [] ["c", "zz"] (by decide)
  exact ⟨v, hv, hlen⟩

set_option maxRecDepth 100000 in
unseal Rat.add Rat.mul Rat.inv Rat.sub in
/-- C2 counterexample: on the concrete 50-bar dataset `ceDataset` the full
pipeline (whose final step is the balance phase followed by the quality
phase) ends with TWO bullish names and ZERO bearish names: the balance
phase equalised the lists at 2/2, but the quality phase then rejected both
bearish signals (constant on this input) while keeping both bullish ones,
so the claimed invariant `len(bullishNames) == len(bearishNames)` fails. -/
theorem c2_balance_counterexample :
    (match engineerFeatures id initEngineer ceDataset with
      | .ok p => some (p.1.bullishFeatures.length, p.1.bearishFeatures.length)
      | .error _ => none) = some (2, 0) := by decide

/-- C2 amended: the balance phase alone always equalises the two lists (at
the length of the shorter one); the quality phase then filters each list
by the same set of rejected names, so the final lists are equal exactly
when the quality phase rejects equally many names from both sides — not
for every input dataset. -/
theorem c2_balance_quality (e : Engineer) :
    ((enforceDirectionalBalance e).1.bullishFeatures.length =
        (enforceDirectionalBalance e).1.bearishFeatures.length ∧
      (enforceDirectionalBalance e).1.bullishFeatures.length =
        min e.bullishFeatures.length e.bearishFeatures.length) ∧
    ∀ df s' df', checkFeatureQuality e df = .ok (s', df') →
      ∃ bad : List String,
        s'.bullishFeatures = e.bullishFeatures.filter (fun f => ¬ bad.contains f) ∧
        s'.bearishFeatures = e.bearishFeatures.filter (fun f => ¬ bad.contains f) := by
  constructor
  · by_cases h1 : e.bullishFeatures.length > e.bearishFeatures.length
    · have hle : e.bearishFeatures.length ≤ e.bullishFeatures.length := by omega
      simp only [enforceDirectionalBalance, if_pos h1]
      constructor
      · simp [List.length_take]
        omega
      · simp [List.length_take]
        omega
    · by_cases h2 : e.bearishFeatures.length > e.bullishFeatures.length
      · simp only [enforceDirectionalBalance, if_neg h1, if_pos h2]
        constructor
        · simp [List.length_take]
          omega
        · simp [List.length_take]
          omega
      · simp only [enforceDirectionalBalance, if_neg h1, if_neg h2]
        omega
  · intro df s' df' h
    cases df with
    | nil => simp [checkFeatureQuality] at h
    | cons hd tl =>
      simp only [checkFeatureQuality] at h
      split at h
      · cases h
        exact ⟨_, rfl, rfl⟩
      · cases h
        refine ⟨[], ?_, ?_⟩ <;> simp

unseal Rat.add Rat.mul Rat.inv Rat.sub in
/-- Witness for C2's amended statement at a concrete engineer and
dataset. -/
theorem c2_balance_quality_witness :
    (enforceDirectionalBalance qWitEngineer).1.bullishFeatures.length =
      min qWitEngineer.bullishFeatures.length qWitEngineer.bearishFeatures.length ∧
    ∃ bad : List String,
      qWitEngineer.bullishFeatures =
        qWitEngineer.bullishFeatures.filter (fun f => ¬ bad.contains f) ∧
      qWitEngineer.bearishFeatures =
        qWitEngineer.bearishFeatures.filter (fun f => ¬ bad.contains f) := by
  have h := c2_balance_quality qWitEngineer
  refine ⟨h.1.2, ?_⟩
  have hq : checkFeatureQuality qWitEngineer qWitDataset =
      .ok (qWitEngineer, qWitDataset) := rfl
  exact h.2 qWitDataset qWitEngineer qWitDataset hq

/-- C8: whenever a required raw field (`1h_close` or `1h_volume`) is
absent or has fewer samples than `config.minDataPoints` (default 50),
`engineerFeatures` aborts with the validation error — raised before any
feature is computed or attached, so no engineered dataset is produced —
and the error message names every missing or insufficient field. -/
theorem c8_validation_fast_fail (sq : ℚ → ℚ) (df : Dataset)
    (hbad : ∃ f ∈ ["1h_close", "1h_volume"],
      dget df f = none ∨ ∃ col, dget df f = some col ∧
        col.length < initEngineer.config.minDataPoints) :
    engineerFeatures sq initEngineer df =
      .error ("Data validation failed: " ++ String.intercalate "; "
        (validationErrors initEngineer.config df ["1h_close", "1h_volume"])) ∧
    ∀ f ∈ ["1h_close", "1h_volume"],
      (dget df f = none ∨ ∃ col, dget df f = some col ∧
        col.length < initEngineer.config.minDataPoints) →
      ("Missing required field: " ++ f) ∈
          validationErrors initEngineer.config df ["1h_close", "1h_volume"] ∨
        ∃ post, ("Field " ++ f ++ post) ∈
          validationErrors initEngineer.config df ["1h_close", "1h_volume"] := by
  have hmem : ∀ f ∈ ["1h_close", "1h_volume"],
      (dget df f = none ∨ ∃ col, dget df f = some col ∧
        col.length < initEngineer.config.minDataPoints) →
      ("Missing required field: " ++ f) ∈
          validationErrors initEngineer.config df ["1h_close", "1h_volume"] ∨
        ∃ post, ("Field " ++ f ++ post) ∈
          validationErrors initEngineer.config df ["1h_close", "1h_volume"] := by
    intro f hf hbadf
    rcases hbadf with hnone | ⟨col, hsome, hlen⟩
    · left
      refine List.mem_flatMap.mpr ⟨f, hf, ?_⟩
      simp [fieldErrors, hnone]
    · right
      refine ⟨" has insufficient data: " ++ toString col.length ++ " < " ++
        toString initEngineer.config.minDataPoints, ?_⟩
      refine List.mem_flatMap.mpr ⟨f, hf, ?_⟩
      simp [fieldErrors, hsome, hlen, String.append_assoc]
  refine ⟨?_, hmem⟩
  obtain ⟨f, hf, hbadf⟩ := hbad
  have hne : validationErrors initEngineer.config df ["1h_close", "1h_volume"] ≠ [] := by
    rcases hmem f hf hbadf with hm | ⟨post, hm⟩ <;>
      exact List.ne_nil_of_mem hm
  have hgt : (validationErrors initEngineer.config df
      ["1h_close", "1h_volume"]).length > 0 :=
    List.length_pos.mpr hne
  have hval : validateData (clearCache initEngineer).config df
      ["1h_close", "1h_volume"] =
      .error ("Data validation failed: " ++ String.intercalate "; "
        (validationErrors initEngineer.config df ["1h_close", "1h_volume"])) := by
    simp only [validateData, clearCache]
    rw [if_pos hgt]
  simp only [engineerFeatures]
  rw [hval]

/-- Witness for C8 at the empty dataset, where both required fields are
missing. -/
theorem c8_validation_fast_fail_witness :
    engineerFeatures id initEngineer [] =
      .error ("Data validation failed: " ++ String.intercalate "; "
        (validationErrors initEngineer.config [] ["1h_close", "1h_volume"])) :=
  (c8_validation_fast_fail id []
    ⟨"1h_close", by simp, Or.inl rfl⟩).1

/-- One bullish block preserves both caps, never touches the bearish list,
and grows the bullish list only when strictly below its cap. -/
theorem tryAddBullish_capBound (name : String) (present : Bool)
    (col : List JVal) (p : Engineer × Dataset) :
    (tryAddBullish name present col p).1.maxBullish = p.1.maxBullish ∧
    (tryAddBullish name present col p).1.maxBearish = p.1.maxBearish ∧
    (tryAddBullish name present col p).1.bullishFeatures.length ≤
      Max.max p.1.bullishFeatures.length p.1.maxBullish ∧
    (tryAddBullish name present col p).1.bearishFeatures.length ≤
      Max.max p.1.bearishFeatures.length p.1.maxBearish := by
  unfold tryAddBullish
  split
  next h =>
    have hlt : p.1.bullishFeatures.length < p.1.maxBullish := by
      have h1 := h.1
      simpa [canAddBullish] using h1
    refine ⟨rfl, rfl, ?_, ?_⟩ <;> simp <;> omega
  next => refine ⟨rfl, rfl, ?_, ?_⟩ <;> omega

/-- One bearish block preserves both caps, never touches the bullish list,
and grows the bearish list only when strictly below its cap. -/
theorem tryAddBearish_capBound (name : String) (present : Bool)
    (col : List JVal) (p : Engineer × Dataset) :
    (tryAddBearish name present col p).1.maxBullish = p.1.maxBullish ∧
    (tryAddBearish name present col p).1.maxBearish = p.1.maxBearish ∧
    (tryAddBearish name present col p).1.bullishFeatures.length ≤
      Max.max p.1.bullishFeatures.length p.1.maxBullish ∧
    (tryAddBearish name present col p).1.bearishFeatures.length ≤
      Max.max p.1.bearishFeatures.length p.1.maxBearish := by
  unfold tryAddBearish
  split
  next h =>
    have hlt : p.1.bearishFeatures.length < p.1.maxBearish := by
      have h1 := h.1
      simpa [canAddBearish] using h1
    refine ⟨rfl, rfl, ?_, ?_⟩ <;> simp <;> omega
  next => refine ⟨rfl, rfl, ?_, ?_⟩ <;> omega

/-- The cached volume-MA lookup never changes the directional lists or the
caps. -/
theorem calculateVolumeMa_snd (sq : ℚ → ℚ) (e : Engineer) (df : Dataset)
    (tf : String) (w : ℕ) :
    (calculateVolumeMa sq e df tf w).2.bullishFeatures = e.bullishFeatures ∧
    (calculateVolumeMa sq e df tf w).2.bearishFeatures = e.bearishFeatures ∧
    (calculateVolumeMa sq e df tf w).2.maxBullish = e.maxBullish ∧
    (calculateVolumeMa sq e df tf w).2.maxBearish = e.maxBearish := by
  simp only [calculateVolumeMa]
  split
  · exact ⟨rfl, rfl, rfl, rfl⟩
  · split
    · exact ⟨rfl, rfl, rfl, rfl⟩
    · exact ⟨rfl, rfl, rfl, rfl⟩

/-- A bullish block attempted at (or above) the bullish cap is a complete
no-op: engineer state and dataset are both returned unchanged. -/
theorem tryAddBullish_at_cap (name : String) (present : Bool)
    (col : List JVal) (p : Engineer × Dataset)
    (h : p.1.maxBullish ≤ p.1.bullishFeatures.length) :
    tryAddBullish name present col p = p := by
  unfold tryAddBullish
  rw [if_neg]
  intro hc
  have h1 := hc.1
  simp [canAddBullish] at h1
  omega

/-- A bearish block attempted at (or above) the bearish cap is a complete
no-op. -/
theorem tryAddBearish_at_cap (name : String) (present : Bool)
    (col : List JVal) (p : Engineer × Dataset)
    (h : p.1.maxBearish ≤ p.1.bearishFeatures.length) :
    tryAddBearish name present col p = p := by
  unfold tryAddBearish
  rw [if_neg]
  intro hc
  have h1 := hc.1
  simp [canAddBearish] at h1
  omega

/-- A bearish block never touches the bullish list or its cap. -/
theorem tryAddBearish_bull_proj (name : String) (present : Bool)
    (col : List JVal) (p : Engineer × Dataset) :
    (tryAddBearish name present col p).1.bullishFeatures = p.1.bullishFeatures ∧
    (tryAddBearish name present col p).1.maxBullish = p.1.maxBullish := by
  unfold tryAddBearish
  split <;> exact ⟨rfl, rfl⟩

/-- A bullish block never touches the bearish list or its cap. -/
theorem tryAddBullish_bear_proj (name : String) (present : Bool)
    (col : List JVal) (p : Engineer × Dataset) :
    (tryAddBullish name present col p).1.bearishFeatures = p.1.bearishFeatures ∧
    (tryAddBullish name present col p).1.maxBearish = p.1.maxBearish := by
  unfold tryAddBullish
  split <;> exact ⟨rfl, rfl⟩

/-- Each of the sixteen candidate blocks of `addDirectionalFeatures`
satisfies the cap-safety property. -/
theorem blocks_capBound (sq : ℚ → ℚ) (volMa : Option (List JVal)) :
    ∀ f ∈ [bull1 sq volMa, bull2 sq, bull3 sq volMa, bull4, bull5, bull6,
      bull7, bull8 sq, bear1 sq volMa, bear2 sq, bear3 sq volMa, bear4,
      bear5, bear6, bear7, bear8 sq],
    ∀ p : Engineer × Dataset,
      (f p).1.maxBullish = p.1.maxBullish ∧
      (f p).1.maxBearish = p.1.maxBearish ∧
      (f p).1.bullishFeatures.length ≤
        Max.max p.1.bullishFeatures.length p.1.maxBullish ∧
      (f p).1.bearishFeatures.length ≤
        Max.max p.1.bearishFeatures.length p.1.maxBearish := by
  intro f hf p
  simp only [List.mem_cons, List.not_mem_nil, or_false] at hf
  rcases hf with rfl | rfl | rfl | rfl | rfl | rfl | rfl | rfl | rfl | rfl |
    rfl | rfl | rfl | rfl | rfl | rfl <;>
    first
      | exact tryAddBullish_capBound _ _ _ p
      | exact tryAddBearish_capBound _ _ _ p

/-- Cap safety propagates through a fold over cap-safe blocks. -/
theorem foldl_capBound (fs : List (Engineer × Dataset → Engineer × Dataset))
    (hfs : ∀ f ∈ fs, ∀ p : Engineer × Dataset,
      (f p).1.maxBullish = p.1.maxBullish ∧
      (f p).1.maxBearish = p.1.maxBearish ∧
      (f p).1.bullishFeatures.length ≤
        Max.max p.1.bullishFeatures.length p.1.maxBullish ∧
      (f p).1.bearishFeatures.length ≤
        Max.max p.1.bearishFeatures.length p.1.maxBearish) :
    ∀ p : Engineer × Dataset,
      (fs.foldl (fun q f => f q) p).1.maxBullish = p.1.maxBullish ∧
      (fs.foldl (fun q f => f q) p).1.maxBearish = p.1.maxBearish ∧
      (fs.foldl (fun q f => f q) p).1.bullishFeatures.length ≤
        Max.max p.1.bullishFeatures.length p.1.maxBullish ∧
      (fs.foldl (fun q f => f q) p).1.bearishFeatures.length ≤
        Max.max p.1.bearishFeatures.length p.1.maxBearish := by
  induction fs with
  | nil =>
    intro p
    exact ⟨rfl, rfl, le_max_left _ _, le_max_left _ _⟩
  | cons f fs ih =>
    intro p
    have hhead := hfs f (List.mem_cons_self f fs) p
    have htail := ih (fun g hg => hfs g (List.mem_cons_of_mem f hg)) (f p)
    simp only [List.foldl_cons] at htail ⊢
    obtain ⟨t1, t2, t3, t4⟩ := htail
    obtain ⟨h1, h2, h3, h4⟩ := hhead
    rw [h1] at t3
    rw [h2] at t4
    exact ⟨by rw [t1, h1], by rw [t2, h2],
      le_trans t3 (max_le h3 (le_max_right _ _)),
      le_trans t4 (max_le h4 (le_max_right _ _))⟩

/-- Frozen-at-cap propagation for the bullish list through a fold. -/
theorem foldl_bullFrozen (fs : List (Engineer × Dataset → Engineer × Dataset))
    (hfs : ∀ f ∈ fs, ∀ p : Engineer × Dataset,
      p.1.maxBullish ≤ p.1.bullishFeatures.length →
      (f p).1.bullishFeatures = p.1.bullishFeatures ∧
      (f p).1.maxBullish = p.1.maxBullish) :
    ∀ p : Engineer × Dataset,
      p.1.maxBullish ≤ p.1.bullishFeatures.length →
      (fs.foldl (fun q f => f q) p).1.bullishFeatures = p.1.bullishFeatures ∧
      (fs.foldl (fun q f => f q) p).1.maxBullish = p.1.maxBullish := by
  induction fs with
  | nil => intro p _; exact ⟨rfl, rfl⟩
  | cons f fs ih =>
    intro p hp
    have hhead := hfs f (List.mem_cons_self f fs) p hp
    have hcap : (f p).1.maxBullish ≤ (f p).1.bullishFeatures.length := by
      rw [hhead.1, hhead.2]
      exact hp
    have htail := ih (fun g hg => hfs g (List.mem_cons_of_mem f hg)) (f p) hcap
    simp only [List.foldl_cons] at htail ⊢
    exact ⟨by rw [htail.1, hhead.1], by rw [htail.2, hhead.2]⟩

/-- Frozen-at-cap propagation for the bearish list through a fold. -/
theorem foldl_bearFrozen (fs : List (Engineer × Dataset → Engineer × Dataset))
    (hfs : ∀ f ∈ fs, ∀ p : Engineer × Dataset,
      p.1.maxBearish ≤ p.1.bearishFeatures.length →
      (f p).1.bearishFeatures = p.1.bearishFeatures ∧
      (f p).1.maxBearish = p.1.maxBearish) :
    ∀ p : Engineer × Dataset,
      p.1.maxBearish ≤ p.1.bearishFeatures.length →
      (fs.foldl (fun q f => f q) p).1.bearishFeatures = p.1.bearishFeatures ∧
      (fs.foldl (fun q f => f q) p).1.maxBearish = p.1.maxBearish := by
  induction fs with
  | nil => intro p _; exact ⟨rfl, rfl⟩
  | cons f fs ih =>
    intro p hp
    have hhead := hfs f (List.mem_cons_self f fs) p hp
    have hcap : (f p).1.maxBearish ≤ (f p).1.bearishFeatures.length := by
      rw [hhead.1, hhead.2]
      exact hp
    have htail := ih (fun g hg => hfs g (List.mem_cons_of_mem f hg)) (f p) hcap
    simp only [List.foldl_cons] at htail ⊢
    exact ⟨by rw [htail.1, hhead.1], by rw [htail.2, hhead.2]⟩

/-- A bullish block at the bullish cap changes nothing. -/
theorem tryAddBullish_frozen (name : String) (present : Bool)
    (col : List JVal) (p : Engineer × Dataset)
    (hp : p.1.maxBullish ≤ p.1.bullishFeatures.length) :
    (tryAddBullish name present col p).1.bullishFeatures =
      p.1.bullishFeatures ∧
    (tryAddBullish name present col p).1.maxBullish = p.1.maxBullish := by
  rw [tryAddBullish_at_cap _ _ _ p hp]
  exact ⟨rfl, rfl⟩

/-- A bearish block at the bearish cap changes nothing. -/
theorem tryAddBearish_frozen (name : String) (present : Bool)
    (col : List JVal) (p : Engineer × Dataset)
    (hp : p.1.maxBearish ≤ p.1.bearishFeatures.length) :
    (tryAddBearish name present col p).1.bearishFeatures =
      p.1.bearishFeatures ∧
    (tryAddBearish name present col p).1.maxBearish = p.1.maxBearish := by
  rw [tryAddBearish_at_cap _ _ _ p hp]
  exact ⟨rfl, rfl⟩

/-- The sixteen blocks freeze the bullish list when it is at its cap:
bullish blocks skip entirely, bearish blocks never touch it. -/
theorem blocks_bullFrozen (sq : ℚ → ℚ) (volMa : Option (List JVal)) :
    ∀ f ∈ [bull1 sq volMa, bull2 sq, bull3 sq volMa, bull4, bull5, bull6,
      bull7, bull8 sq, bear1 sq volMa, bear2 sq, bear3 sq volMa, bear4,
      bear5, bear6, bear7, bear8 sq],
    ∀ p : Engineer × Dataset,
      p.1.maxBullish ≤ p.1.bullishFeatures.length →
      (f p).1.bullishFeatures = p.1.bullishFeatures ∧
      (f p).1.maxBullish = p.1.maxBullish := by
  intro f hf p hp
  simp only [List.mem_cons, List.not_mem_nil, or_false] at hf
  rcases hf with rfl | rfl | rfl | rfl | rfl | rfl | rfl | rfl | rfl | rfl |
    rfl | rfl | rfl | rfl | rfl | rfl <;>
    first
      | exact tryAddBullish_frozen _ _ _ p hp
      | exact tryAddBearish_bull_proj _ _ _ p

/-- The sixteen blocks freeze the bearish list when it is at its cap. -/
theorem blocks_bearFrozen (sq : ℚ → ℚ) (volMa : Option (List JVal)) :
    ∀ f ∈ [bull1 sq volMa, bull2 sq, bull3 sq volMa, bull4, bull5, bull6,
      bull7, bull8 sq, bear1 sq volMa, bear2 sq, bear3 sq volMa, bear4,
      bear5, bear6, bear7, bear8 sq],
    ∀ p : Engineer × Dataset,
      p.1.maxBearish ≤ p.1.bearishFeatures.length →
      (f p).1.bearishFeatures = p.1.bearishFeatures ∧
      (f p).1.maxBearish = p.1.maxBearish := by
  intro f hf p hp
  simp only [List.mem_cons, List.not_mem_nil, or_false] at hf
  rcases hf with rfl | rfl | rfl | rfl | rfl | rfl | rfl | rfl | rfl | rfl |
    rfl | rfl | rfl | rfl | rfl | rfl <;>
    first
      | exact tryAddBearish_frozen _ _ _ p hp
      | exact tryAddBullish_bear_proj _ _ _ p

/-- `addDirectionalFeatures` written as a fold over its sixteen blocks
after the volume-MA prelude. -/
theorem addDirectionalFeatures_as_fold (sq : ℚ → ℚ) (e : Engineer)
    (df : Dataset) :
    addDirectionalFeatures sq e df =
      ([bull1 sq (calculateVolumeMa sq e df "1h" 24).1, bull2 sq,
        bull3 sq (calculateVolumeMa sq e df "1h" 24).1, bull4, bull5, bull6,
        bull7, bull8 sq, bear1 sq (calculateVolumeMa sq e df "1h" 24).1,
        bear2 sq, bear3 sq (calculateVolumeMa sq e df "1h" 24).1, bear4,
        bear5, bear6, bear7, bear8 sq].foldl (fun q f => f q)
        ((calculateVolumeMa sq e df "1h" 24).2, df)) := by
  simp only [List.foldl_cons, List.foldl_nil]
  rfl

/-- C4: the directional caps always hold — one call to
`addDirectionalFeatures` keeps both list lengths below
`max (previous length) (cap)` and preserves the caps; any number of
repeated invocations starting from a fresh engineer keeps both lengths at
most 15; and a candidate block attempted while its category is at its cap
is skipped entirely, changing neither the engineer state nor the dataset
(in particular, at the bullish cap the whole call leaves the bullish list
unchanged, and symmetrically for bearish). -/
theorem c4_cap_invariant :
    (∀ (sq : ℚ → ℚ) (e : Engineer) (df : Dataset),
      (addDirectionalFeatures sq e df).1.maxBullish = e.maxBullish ∧
      (addDirectionalFeatures sq e df).1.maxBearish = e.maxBearish ∧
      (addDirectionalFeatures sq e df).1.bullishFeatures.length ≤
        Max.max e.bullishFeatures.length e.maxBullish ∧
      (addDirectionalFeatures sq e df).1.bearishFeatures.length ≤
        Max.max e.bearishFeatures.length e.maxBearish) ∧
    (∀ (sq : ℚ → ℚ) (df : Dataset) (n : ℕ),
      ((fun p : Engineer × Dataset => addDirectionalFeatures sq p.1 p.2)^[n]
        (initEngineer, df)).1.bullishFeatures.length ≤ 15 ∧
      ((fun p : Engineer × Dataset => addDirectionalFeatures sq p.1 p.2)^[n]
        (initEngineer, df)).1.bearishFeatures.length ≤ 15) ∧
    (∀ (name : String) (present : Bool) (col : List JVal)
      (p : Engineer × Dataset),
      p.1.maxBullish ≤ p.1.bullishFeatures.length →
        tryAddBullish name present col p = p) ∧
    (∀ (name : String) (present : Bool) (col : List JVal)
      (p : Engineer × Dataset),
      p.1.maxBearish ≤ p.1.bearishFeatures.length →
        tryAddBearish name present col p = p) ∧
    (∀ (sq : ℚ → ℚ) (e : Engineer) (df : Dataset),
      e.maxBullish ≤ e.bullishFeatures.length →
        (addDirectionalFeatures sq e df).1.bullishFeatures =
          e.bullishFeatures) ∧
    (∀ (sq : ℚ → ℚ) (e : Engineer) (df : Dataset),
      e.maxBearish ≤ e.bearishFeatures.length →
        (addDirectionalFeatures sq e df).1.bearishFeatures =
          e.bearishFeatures) := by
  have hmain : ∀ (sq : ℚ → ℚ) (e : Engineer) (df : Dataset),
      (addDirectionalFeatures sq e df).1.maxBullish = e.maxBullish ∧
      (addDirectionalFeatures sq e df).1.maxBearish = e.maxBearish ∧
      (addDirectionalFeatures sq e df).1.bullishFeatures.length ≤
        Max.max e.bullishFeatures.length e.maxBullish ∧
      (addDirectionalFeatures sq e df).1.bearishFeatures.length ≤
        Max.max e.bearishFeatures.length e.maxBearish := by
    intro sq e df
    have hv := calculateVolumeMa_snd sq e df "1h" 24
    have hfold := foldl_capBound _
      (blocks_capBound sq (calculateVolumeMa sq e df "1h" 24).1)
      ((calculateVolumeMa sq e df "1h" 24).2, df)
    rw [addDirectionalFeatures_as_fold]
    obtain ⟨f1, f2, f3, f4⟩ := hfold
    obtain ⟨v1, v2, v3, v4⟩ := hv
    refine ⟨by rw [f1]; exact v3, by rw [f2]; exact v4, ?_, ?_⟩
    · rw [v1, v3] at f3
      exact f3
    · rw [v2, v4] at f4
      exact f4
  refine ⟨hmain, ?_, tryAddBullish_at_cap, tryAddBearish_at_cap, ?_, ?_⟩
  · intro sq df n
    have H : ∀ m : ℕ,
        (((fun p : Engineer × Dataset =>
          addDirectionalFeatures sq p.1 p.2)^[m]
            (initEngineer, df)).1.bullishFeatures.length ≤ 15 ∧
          ((fun p : Engineer × Dataset =>
            addDirectionalFeatures sq p.1 p.2)^[m]
              (initEngineer, df)).1.bearishFeatures.length ≤ 15) ∧
        ((fun p : Engineer × Dataset =>
          addDirectionalFeatures sq p.1 p.2)^[m]
            (initEngineer, df)).1.maxBullish = 15 ∧
        ((fun p : Engineer × Dataset =>
          addDirectionalFeatures sq p.1 p.2)^[m]
            (initEngineer, df)).1.maxBearish = 15 := by
      intro m
      induction m with
      | zero => exact ⟨⟨by simp [initEngineer], by simp [initEngineer]⟩, rfl, rfl⟩
      | succ k ihk =>
        obtain ⟨⟨i1, i2⟩, i3, i4⟩ := ihk
        obtain ⟨h1, h2, h3, h4⟩ := hmain sq
          ((fun p : Engineer × Dataset =>
            addDirectionalFeatures sq p.1 p.2)^[k] (initEngineer, df)).1
          ((fun p : Engineer × Dataset =>
            addDirectionalFeatures sq p.1 p.2)^[k] (initEngineer, df)).2
        rw [Function.iterate_succ_apply']
        exact ⟨⟨by rw [i3] at h3; omega, by rw [i4] at h4; omega⟩,
          by rw [h1]; exact i3, by rw [h2]; exact i4⟩
    exact (H n).1
  · intro sq e df hcap
    have hv := calculateVolumeMa_snd sq e df "1h" 24
    have hfr := foldl_bullFrozen _
      (blocks_bullFrozen sq (calculateVolumeMa sq e df "1h" 24).1)
      ((calculateVolumeMa sq e df "1h" 24).2, df)
      (by rw [hv.1, hv.2.2.1]; exact hcap)
    rw [addDirectionalFeatures_as_fold]
    rw [hfr.1, hv.1]
  · intro sq e df hcap
    have hv := calculateVolumeMa_snd sq e df "1h" 24
    have hfr := foldl_bearFrozen _
      (blocks_bearFrozen sq (calculateVolumeMa sq e df "1h" 24).1)
      ((calculateVolumeMa sq e df "1h" 24).2, df)
      (by rw [hv.2.1, hv.2.2.2]; exact hcap)
    rw [addDirectionalFeatures_as_fold]
    rw [hfr.1, hv.2.1]

/-- Witness for C4 at an engineer already holding 15/15 directional
names. -/
theorem c4_cap_invariant_witness :
    tryAddBullish "x" true [] (capEngineer, ([] : Dataset)) =
      (capEngineer, ([] : Dataset)) ∧
    (addDirectionalFeatures id capEngineer []).1.bullishFeatures =
      capEngineer.bullishFeatures :=
  ⟨c4_cap_invariant.2.2.1 "x" true [] (capEngineer, ([] : Dataset))
      (by decide),
    c4_cap_invariant.2.2.2.2.1 id capEngineer [] (by decide)⟩

theorem jor_num_zero (a : ℚ) : jor (JVal.num a) (JVal.num 0) = JVal.num a := by
  by_cases h : a = 0
  · subst h
    rfl
  · simp [jor, JVal.truthy, h]

theorem jadd_num (a b : ℚ) : jadd (.num a) (.num b) = .num (a + b) := rfl

theorem jdiv_num (a b : ℚ) (hb : b ≠ 0) :
    jdiv (.num a) (.num b) = .num (a / b) := by
  simp [jdiv, JVal.toNum, JNum.div, hb, JNum.toJVal]

theorem jmax_num (a b : ℚ) : jmax (.num a) (.num b) = .num (max a b) := rfl

theorem jeq_num (a b : ℚ) : jeq (.num a) (.num b) = decide (a = b) := by
  simp [jeq]

theorem jsub_num (a b : ℚ) : jsub (.num a) (.num b) = .num (a - b) := by
  simp [jsub, JVal.toNum, JNum.add, JNum.neg, JNum.toJVal, sub_eq_add_neg]

theorem jmul_num (a b : ℚ) : jmul (.num a) (.num b) = .num (a * b) := rfl

theorem jmin_num (a b : ℚ) : jmin (.num a) (.num b) = .num (min a b) := rfl

theorem ensemble_fold (qs : List (ℚ × ℚ × ℚ)) (sa sb sc : ℚ) :
    ((qs.map fun t => [JVal.num t.1, JVal.num t.2.1, JVal.num t.2.2]).foldl
      (fun (acc : JVal × JVal × JVal) pred =>
        (jadd acc.1 (jor (jget pred 0) (.num 0)),
          jadd acc.2.1 (jor (jget pred 1) (.num 0)),
          jadd acc.2.2 (jor (jget pred 2) (.num 0))))
      (.num sa, .num sb, .num sc)) =
    (.num (sa + (qs.map fun t => t.1).sum),
      .num (sb + (qs.map fun t => t.2.1).sum),
      .num (sc + (qs.map fun t => t.2.2).sum)) := by
  induction qs generalizing sa sb sc with
  | nil => simp
  | cons t ts ih =>
    simp only [List.map_cons, List.foldl_cons, List.sum_cons]
    have e0 : jadd (JVal.num sa)
        (jor (jget [JVal.num t.1, JVal.num t.2.1, JVal.num t.2.2] 0) (.num 0)) =
        JVal.num (sa + t.1) := by
      rw [show jget [JVal.num t.1, JVal.num t.2.1, JVal.num t.2.2] 0 =
        JVal.num t.1 from rfl, jor_num_zero, jadd_num]
    have e1 : jadd (JVal.num sb)
        (jor (jget [JVal.num t.1, JVal.num t.2.1, JVal.num t.2.2] 1) (.num 0)) =
        JVal.num (sb + t.2.1) := by
      rw [show jget [JVal.num t.1, JVal.num t.2.1, JVal.num t.2.2] 1 =
        JVal.num t.2.1 from rfl, jor_num_zero, jadd_num]
    have e2 : jadd (JVal.num sc)
        (jor (jget [JVal.num t.1, JVal.num t.2.1, JVal.num t.2.2] 2) (.num 0)) =
        JVal.num (sc + t.2.2) := by
      rw [show jget [JVal.num t.1, JVal.num t.2.1, JVal.num t.2.2] 2 =
        JVal.num t.2.2 from rfl, jor_num_zero, jadd_num]
    rw [e0, e1, e2, ih]
    simp [add_assoc]

theorem jsIndexOf_three (a b c t : ℚ) :
    jsIndexOf [.num a, .num b, .num c] (.num t) =
      if a = t then 0 else if b = t then 1 else if c = t then 2 else -1 := by
  simp only [jsIndexOf, List.findIdx?_cons, jeq_num]
  by_cases h1 : a = t
  · simp [h1]
  · by_cases h2 : b = t
    · simp [h1, h2]
    · by_cases h3 : c = t <;> simp [h1, h2, h3]



/-- C1 amended: for every non-empty list of probability triples of
non-negative rationals with positive total mass, the ensemble returns the
element-wise averages renormalized by their sum (so the probabilities sum
to exactly 1), the arg-max class with ties broken by lowest index (DOWN
before NEUTRAL before UP), the winning normalized probability (the maximum
of the three) as confidence, and the number of input triples as
`modelsUsed`. -/
theorem c1_ensemble_spec (qs : List (ℚ × ℚ × ℚ)) (hne : qs ≠ [])
    (hpos : 0 < (qs.map fun t => t.1 + t.2.1 + t.2.2).sum) :
    ∃ r, ensembleCryptoPredictions
        (qs.map fun t => [JVal.num t.1, JVal.num t.2.1, JVal.num t.2.2]) =
          .ok r ∧
      ∃ pd pn pu : ℚ,
        r.probDown = .num pd ∧ r.probNeutral = .num pn ∧ r.probUp = .num pu ∧
        pd = ((qs.map fun t => t.1).sum / qs.length) /
          ((qs.map fun t => t.1).sum / qs.length +
            (qs.map fun t => t.2.1).sum / qs.length +
            (qs.map fun t => t.2.2).sum / qs.length) ∧
        pn = ((qs.map fun t => t.2.1).sum / qs.length) /
          ((qs.map fun t => t.1).sum / qs.length +
            (qs.map fun t => t.2.1).sum / qs.length +
            (qs.map fun t => t.2.2).sum / qs.length) ∧
        pu = ((qs.map fun t => t.2.2).sum / qs.length) /
          ((qs.map fun t => t.1).sum / qs.length +
            (qs.map fun t => t.2.1).sum / qs.length +
            (qs.map fun t => t.2.2).sum / qs.length) ∧
        pd + pn + pu = 1 ∧
        r.confidence = .num (max pd (max pn pu)) ∧
        r.modelsUsed = qs.length ∧
        ((pn ≤ pd ∧ pu ≤ pd) → r.cls = 0 ∧ r.className = some "DOWN") ∧
        (¬ (pn ≤ pd ∧ pu ≤ pd) → pu ≤ pn →
          r.cls = 1 ∧ r.className = some "NEUTRAL") ∧
        (¬ (pn ≤ pd ∧ pu ≤ pd) → ¬ pu ≤ pn →
          r.cls = 2 ∧ r.className = some "UP") := by
  have hn0 : (qs.length : ℚ) ≠ 0 := by
    simp [List.length_eq_zero]
    exact hne
  set A := (qs.map fun t => t.1).sum / (qs.length : ℚ) with hA
  set B := (qs.map fun t => t.2.1).sum / (qs.length : ℚ) with hB
  set C := (qs.map fun t => t.2.2).sum / (qs.length : ℚ) with hC
  have hS : (qs.map fun t => t.1 + t.2.1 + t.2.2).sum =
      (qs.map fun t => t.1).sum + (qs.map fun t => t.2.1).sum +
        (qs.map fun t => t.2.2).sum := by
    rw [show (fun t : ℚ × ℚ × ℚ => t.1 + t.2.1 + t.2.2) =
      (fun t : ℚ × ℚ × ℚ => (fun s : ℚ × ℚ × ℚ => s.1 + s.2.1) t +
        (fun s : ℚ × ℚ × ℚ => s.2.2) t) from rfl]
    rw [List.sum_map_add]
    rw [show (fun t : ℚ × ℚ × ℚ => t.1 + t.2.1) =
      (fun t : ℚ × ℚ × ℚ => (fun s : ℚ × ℚ × ℚ => s.1) t +
        (fun s : ℚ × ℚ × ℚ => s.2.1) t) from rfl]
    rw [List.sum_map_add]
  have hSpos : 0 < A + B + C := by
    rw [hA, hB, hC, div_add_div_same, div_add_div_same]
    rw [← hS]
    have : (0 : ℚ) < qs.length := by
      rcases Nat.eq_zero_or_pos qs.length with h | h
      · exact absurd (Nat.cast_eq_zero.mpr h) hn0
      · exact_mod_cast h
    exact div_pos hpos this
  have hSne : A + B + C ≠ 0 := ne_of_gt hSpos
  set pd := A / (A + B + C) with hpd
  set pn := B / (A + B + C) with hpn
  set pu := C / (A + B + C) with hpu
  have hsum1 : pd + pn + pu = 1 := by
    rw [hpd, hpn, hpu, div_add_div_same, div_add_div_same]
    exact div_self hSne
  set M := max (max pd pn) pu with hM
  have hlen : ¬ ((qs.map fun t =>
      [JVal.num t.1, JVal.num t.2.1, JVal.num t.2.2]).length = 0) := by
    simpa [List.length_eq_zero] using hne
  have hres : ensembleCryptoPredictions
      (qs.map fun t => [JVal.num t.1, JVal.num t.2.1, JVal.num t.2.2]) =
      .ok { cls := jsIndexOf [.num pd, .num pn, .num pu] (.num M)
            className :=
              if 0 ≤ jsIndexOf [.num pd, .num pn, .num pu] (.num M) then
                ["DOWN", "NEUTRAL", "UP"].get?
                  (jsIndexOf [.num pd, .num pn, .num pu] (.num M)).toNat
              else none
            confidence := jgetI [.num pd, .num pn, .num pu]
              (jsIndexOf [.num pd, .num pn, .num pu] (.num M))
            probDown := .num pd
            probNeutral := .num pn
            probUp := .num pu
            modelsUsed := qs.length } := by
    unfold ensembleCryptoPredictions
    rw [if_neg hlen]
    have hfold := ensemble_fold qs 0 0 0
    simp only [zero_add] at hfold
    rw [hfold]
    simp only [List.length_map]
    rw [jdiv_num _ _ hn0, jdiv_num _ _ hn0, jdiv_num _ _ hn0]
    rw [show jadd (jadd (jadd (JVal.num 0) (JVal.num A)) (JVal.num B))
      (JVal.num C) = JVal.num (A + B + C) by
        rw [jadd_num, jadd_num, jadd_num, zero_add]]
    rw [jdiv_num _ _ hSne, jdiv_num _ _ hSne, jdiv_num _ _ hSne]
    rw [show jmax (jmax (jmax JVal.ninf (JVal.num pd)) (JVal.num pn))
      (JVal.num pu) = JVal.num M by
        rw [show jmax JVal.ninf (JVal.num pd) = JVal.num pd from rfl,
          jmax_num, jmax_num]]
  have hIdx := jsIndexOf_three pd pn pu M
  refine ⟨_, hres, pd, pn, pu, rfl, rfl, rfl, rfl, rfl, rfl, hsum1, ?_, rfl,
    ?_, ?_, ?_⟩
  · show jgetI [.num pd, .num pn, .num pu]
        (jsIndexOf [.num pd, .num pn, .num pu] (.num M)) =
      .num (max pd (max pn pu))
    rw [← max_assoc, ← hM]
    by_cases h1 : pd = M
    · rw [hIdx, if_pos h1]
      rw [show jgetI [JVal.num pd, JVal.num pn, JVal.num pu] 0 =
        JVal.num pd from rfl, h1]
    · by_cases h2 : pn = M
      · rw [hIdx, if_neg h1, if_pos h2]
        rw [show jgetI [JVal.num pd, JVal.num pn, JVal.num pu] 1 =
          JVal.num pn from rfl, h2]
      · have h3 : pu = M := by
          rcases max_cases (max pd pn) pu with ⟨he, _⟩ | ⟨he, _⟩
          · rcases max_cases pd pn with ⟨he2, _⟩ | ⟨he2, _⟩
            · exact absurd (by rw [hM, he, he2]) (Ne.symm (Ne.intro h1) ∘ Eq.symm)
            · exact absurd (by rw [hM, he, he2]) (Ne.symm (Ne.intro h2) ∘ Eq.symm)
          · rw [hM, he]
        rw [hIdx, if_neg h1, if_neg h2, if_pos h3]
        rw [show jgetI [JVal.num pd, JVal.num pn, JVal.num pu] 2 =
          JVal.num pu from rfl, h3]
  · intro h1
    have hdM : pd = M := by
      rw [hM, max_assoc]
      exact (max_eq_left (max_le h1.1 h1.2)).symm
    constructor
    · show jsIndexOf [.num pd, .num pn, .num pu] (.num M) = 0
      rw [hIdx, if_pos hdM]
    · show (if 0 ≤ jsIndexOf [.num pd, .num pn, .num pu] (.num M) then
        ["DOWN", "NEUTRAL", "UP"].get?
          (jsIndexOf [.num pd, .num pn, .num pu] (.num M)).toNat
        else none) = some "DOWN"
      rw [hIdx, if_pos hdM]
      rfl
  · intro h1 h2
    have hdn : pd < pn := by
      rcases not_and_or.mp h1 with hlt | hlt
      · exact lt_of_not_le hlt
      · exact lt_of_lt_of_le (lt_of_not_le hlt) h2
    have hMn : M = pn := by
      rw [hM, max_eq_right hdn.le, max_eq_left h2]
    have hd1 : ¬ pd = M := by
      rw [hMn]
      exact ne_of_lt hdn
    constructor
    · show jsIndexOf [.num pd, .num pn, .num pu] (.num M) = 1
      rw [hIdx, if_neg hd1, if_pos hMn.symm]
    · show (if 0 ≤ jsIndexOf [.num pd, .num pn, .num pu] (.num M) then
        ["DOWN", "NEUTRAL", "UP"].get?
          (jsIndexOf [.num pd, .num pn, .num pu] (.num M)).toNat
        else none) = some "NEUTRAL"
      rw [hIdx, if_neg hd1, if_pos hMn.symm]
      rfl
  · intro h1 h2
    have hnu : pn < pu := lt_of_not_le h2
    have hdu : pd < pu := by
      rcases not_and_or.mp h1 with hlt | hlt
      · exact lt_trans (lt_of_not_le hlt) hnu
      · exact lt_of_not_le hlt
    have hMu : M = pu := by
      rw [hM]
      exact max_eq_right (le_of_lt (max_lt hdu hnu))
    have hd1 : ¬ pd = M := by
      rw [hMu]
      exact ne_of_lt hdu
    have hd2 : ¬ pn = M := by
      rw [hMu]
      exact ne_of_lt hnu
    constructor
    · show jsIndexOf [.num pd, .num pn, .num pu] (.num M) = 2
      rw [hIdx, if_neg hd1, if_neg hd2, if_pos hMu.symm]
    · show (if 0 ≤ jsIndexOf [.num pd, .num pn, .num pu] (.num M) then
        ["DOWN", "NEUTRAL", "UP"].get?
          (jsIndexOf [.num pd, .num pn, .num pu] (.num M)).toNat
        else none) = some "UP"
      rw [hIdx, if_neg hd1, if_neg hd2, if_pos hMu.symm]
      rfl



/-- A series containing only `null`, `NaN` and finite numbers filters down
to exactly its numeric entries. -/
theorem filter_valid_eq (l : List JVal)
    (h : ∀ v ∈ l, v = JVal.null ∨ v = JVal.nan ∨ ∃ q : ℚ, v = JVal.num q) :
    l.filter isValidSample =
      (l.filterMap fun v => match v with
        | JVal.num q => some q
        | _ => none).map JVal.num := by
  induction l with
  | nil => rfl
  | cons x xs ih =>
    have ht := ih fun v hv => h v (List.mem_cons_of_mem _ hv)
    rcases h x (List.mem_cons_self _ _) with rfl | rfl | ⟨q, rfl⟩ <;>
      simp [List.filter_cons, List.filterMap_cons, isValidSample, isNaNJ,
        JVal.toNum, ht]

theorem foldl_jadd_map_num (l : List ℚ) (s : ℚ) :
    (l.map JVal.num).foldl jadd (.num s) = .num (s + l.sum) := by
  induction l generalizing s with
  | nil => simp
  | cons x xs ih =>
    simp only [List.map_cons, List.foldl_cons, List.sum_cons, jadd_num]
    rw [ih]
    rw [add_assoc]

theorem foldl_jmax_map_num (l : List ℚ) (m : ℚ) :
    (l.map JVal.num).foldl jmax (.num m) = .num (l.foldl max m) := by
  induction l generalizing m with
  | nil => rfl
  | cons x xs ih =>
    simp only [List.map_cons, List.foldl_cons, jmax_num]
    rw [ih]

theorem foldl_jmin_map_num (l : List ℚ) (m : ℚ) :
    (l.map JVal.num).foldl jmin (.num m) = .num (l.foldl min m) := by
  induction l generalizing m with
  | nil => rfl
  | cons x xs ih =>
    simp only [List.map_cons, List.foldl_cons, jmin_num]
    rw [ih]

theorem foldl_var_map_num (l : List ℚ) (m s : ℚ) :
    (l.map JVal.num).foldl
      (fun a b => jadd a (jmul (jsub b (.num m)) (jsub b (.num m))))
      (.num s) =
    .num (s + (l.map fun x => (x - m) * (x - m)).sum) := by
  induction l generalizing s with
  | nil => simp
  | cons x xs ih =>
    simp only [List.map_cons, List.foldl_cons, List.sum_cons, jsub_num,
      jmul_num, jadd_num]
    rw [ih]
    rw [add_assoc]

theorem foldl_max_spec (xs : List ℚ) (x : ℚ) :
    (xs.foldl max x = x ∨ xs.foldl max x ∈ xs) ∧
    x ≤ xs.foldl max x ∧ ∀ y ∈ xs, y ≤ xs.foldl max x := by
  induction xs generalizing x with
  | nil => exact ⟨Or.inl rfl, le_refl _, by simp⟩
  | cons z zs ih =>
    obtain ⟨hmem, hle, hall⟩ := ih (max x z)
    simp only [List.foldl_cons]
    refine ⟨?_, ?_, ?_⟩
    · rcases hmem with he | he
      · rcases max_choice x z with hc | hc
        · exact Or.inl (he.trans hc)
        · refine Or.inr ?_
          rw [he.trans hc]
          exact List.mem_cons_self _ _
      · exact Or.inr (List.mem_cons_of_mem _ he)
    · exact le_trans (le_max_left _ _) hle
    · intro y hy
      rcases List.mem_cons.mp hy with rfl | hy
      · exact le_trans (le_max_right _ _) hle
      · exact hall y hy

theorem foldl_min_spec (xs : List ℚ) (x : ℚ) :
    (xs.foldl min x = x ∨ xs.foldl min x ∈ xs) ∧
    xs.foldl min x ≤ x ∧ ∀ y ∈ xs, xs.foldl min x ≤ y := by
  induction xs generalizing x with
  | nil => exact ⟨Or.inl rfl, le_refl _, by simp⟩
  | cons z zs ih =>
    obtain ⟨hmem, hle, hall⟩ := ih (min x z)
    simp only [List.foldl_cons]
    refine ⟨?_, ?_, ?_⟩
    · rcases hmem with he | he
      · rcases min_choice x z with hc | hc
        · exact Or.inl (he.trans hc)
        · refine Or.inr ?_
          rw [he.trans hc]
          exact List.mem_cons_self _ _
      · exact Or.inr (List.mem_cons_of_mem _ he)
    · exact le_trans hle (min_le_left _ _)
    · intro y hy
      rcases List.mem_cons.mp hy with rfl | hy
      · exact le_trans hle (min_le_right _ _)
      · exact hall y hy

/-- C7 amended: for the crypto `rollingWindow` called without an explicit
`minPeriods`, the default minimum is `⌊window / 2⌋` for EVERY operation
(mean and std included, not `window` as claimed); below it the result is
`null`, and at or above it the result is the operation applied to exactly
the valid samples of the trailing window, with `std` the population
standard deviation (square root of the variance that divides by N).  The
forex `rolling` (a mean) defaults to the full `window` instead.
Degenerate windows (`window ≤ 1` crypto, `window = 0` forex) are
excluded, and series contain only `null`, `NaN` or finite samples. -/
theorem c7_rolling_default_spec :
    (∀ (sq : ℚ → ℚ) (arr : List JVal) (window : ℕ) (op : Op) (i : ℕ),
      2 ≤ window →
      (∀ v ∈ arr, v = JVal.null ∨ v = JVal.nan ∨ ∃ q : ℚ, v = JVal.num q) →
      i < arr.length →
      ((windowRats arr window i).length < window / 2 →
        (rollingWindow sq arr window none op).getD i .undef = JVal.null) ∧
      (window / 2 ≤ (windowRats arr window i).length →
        (op = .mean → (rollingWindow sq arr window none op).getD i .undef =
          .num ((windowRats arr window i).sum /
            (windowRats arr window i).length)) ∧
        (op = .sum → (rollingWindow sq arr window none op).getD i .undef =
          .num (windowRats arr window i).sum) ∧
        (op = .std → (rollingWindow sq arr window none op).getD i .undef =
          .num (sq (((windowRats arr window i).map fun x =>
            (x - (windowRats arr window i).sum /
              (windowRats arr window i).length) *
            (x - (windowRats arr window i).sum /
              (windowRats arr window i).length)).sum /
            (windowRats arr window i).length))) ∧
        (op = .max → ∃ m,
          (rollingWindow sq arr window none op).getD i .undef = .num m ∧
          m ∈ windowRats arr window i ∧
          ∀ x ∈ windowRats arr window i, x ≤ m) ∧
        (op = .min → ∃ m,
          (rollingWindow sq arr window none op).getD i .undef = .num m ∧
          m ∈ windowRats arr window i ∧
          ∀ x ∈ windowRats arr window i, m ≤ x))) ∧
    (∀ (arr : List JVal) (window : ℕ) (i : ℕ),
      1 ≤ window →
      (∀ v ∈ arr, v = JVal.null ∨ v = JVal.nan ∨ ∃ q : ℚ, v = JVal.num q) →
      i < arr.length →
      ((windowRats arr window i).length < window →
        (forexRolling arr window none).getD i .undef = JVal.null) ∧
      (window ≤ (windowRats arr window i).length →
        (forexRolling arr window none).getD i .undef =
          .num ((windowRats arr window i).sum /
            (windowRats arr window i).length))) := by
  have hsub : ∀ (arr : List JVal) (window i : ℕ),
      (∀ v ∈ arr, v = JVal.null ∨ v = JVal.nan ∨ ∃ q : ℚ, v = JVal.num q) →
      (windowSlice arr window i).filter isValidSample =
        (windowRats arr window i).map JVal.num := by
    intro arr window i hv
    refine filter_valid_eq _ fun v hmem => hv v ?_
    have h1 : List.Sublist (windowSlice arr window i) (arr.take (i + 1)) :=
      List.drop_sublist _ _
    have h2 : List.Sublist (arr.take (i + 1)) arr := List.take_sublist _ _
    exact (h1.trans h2).mem hmem
  constructor
  · intro sq arr window op i hw hv hi
    have hkey : (rollingWindow sq arr window none op).getD i .undef =
        if window / 2 ≤
            ((windowSlice arr window i).filter isValidSample).length then
          opApply sq op ((windowSlice arr window i).filter isValidSample)
        else JVal.null := by
      unfold rollingWindow
      rw [getD_range_map _ hi]
    rw [hsub arr window i hv] at hkey
    rw [List.length_map] at hkey
    constructor
    · intro hlt
      rw [hkey, if_neg (by omega)]
    · intro hge
      have hw2 : 1 ≤ window / 2 := by omega
      have hne : windowRats arr window i ≠ [] := by
        intro hc
        rw [hc] at hge
        simp at hge
        omega
      have hlen0 : ((windowRats arr window i).length : ℚ) ≠ 0 := by
        simp [List.length_eq_zero]
        exact hne
      have hnonneg : (0 : ℚ) ≤ ((windowRats arr window i).map fun x =>
          (x - (windowRats arr window i).sum /
            (windowRats arr window i).length) *
          (x - (windowRats arr window i).sum /
            (windowRats arr window i).length)).sum /
          (windowRats arr window i).length := by
        apply div_nonneg
        · apply List.sum_nonneg
          intro y hy
          obtain ⟨x, _, rfl⟩ := List.mem_map.mp hy
          exact mul_self_nonneg _
        · exact Nat.cast_nonneg _
      rw [hkey, if_pos hge]
      refine ⟨?_, ?_, ?_, ?_, ?_⟩
      · intro hop
        subst hop
        simp only [opApply]
        rw [foldl_jadd_map_num, zero_add, List.length_map]
        rw [jdiv_num _ _ hlen0]
      · intro hop
        subst hop
        simp only [opApply]
        rw [foldl_jadd_map_num, zero_add]
      · intro hop
        subst hop
        simp only [opApply]
        rw [foldl_jadd_map_num, zero_add, List.length_map]
        rw [jdiv_num _ _ hlen0]
        rw [foldl_var_map_num, zero_add]
        rw [jdiv_num _ _ hlen0]
        unfold jsqrt
        simp only [JVal.toNum]
        rw [if_neg (not_lt.mpr hnonneg)]
      · intro hop
        subst hop
        rcases hxe : windowRats arr window i with _ | ⟨x, xs⟩
        · exact absurd hxe hne
        · simp only [opApply, List.map_cons, List.foldl_cons]
          rw [show jmax JVal.ninf (JVal.num x) = JVal.num x from rfl]
          rw [foldl_jmax_map_num]
          obtain ⟨hmem, hle, hall⟩ := foldl_max_spec xs x
          refine ⟨xs.foldl max x, rfl, ?_, ?_⟩
          · rcases hmem with he | he
            · rw [he]
              exact List.mem_cons_self _ _
            · exact List.mem_cons_of_mem _ he
          · intro y hy
            rcases List.mem_cons.mp hy with rfl | hy
            · exact hle
            · exact hall y hy
      · intro hop
        subst hop
        rcases hxe : windowRats arr window i with _ | ⟨x, xs⟩
        · exact absurd hxe hne
        · simp only [opApply, List.map_cons, List.foldl_cons]
          rw [show jmin JVal.inf (JVal.num x) = JVal.num x from rfl]
          rw [foldl_jmin_map_num]
          obtain ⟨hmem, hle, hall⟩ := foldl_min_spec xs x
          refine ⟨xs.foldl min x, rfl, ?_, ?_⟩
          · rcases hmem with he | he
            · rw [he]
              exact List.mem_cons_self _ _
            · exact List.mem_cons_of_mem _ he
          · intro y hy
            rcases List.mem_cons.mp hy with rfl | hy
            · exact hle
            · exact hall y hy
  · intro arr window i hw hv hi
    have hkey : (forexRolling arr window none).getD i .undef =
        if window ≤
            ((windowSlice arr window i).filter isValidSample).length then
          jdiv (((windowSlice arr window i).filter isValidSample).foldl jadd
            (.num 0))
            (.num ((windowSlice arr window i).filter isValidSample).length)
        else JVal.null := by
      unfold forexRolling
      rw [getD_range_map _ hi]
    rw [hsub arr window i hv] at hkey
    rw [List.length_map] at hkey
    constructor
    · intro hlt
      rw [hkey, if_neg (by omega)]
    · intro hge
      have hne : windowRats arr window i ≠ [] := by
        intro hc
        rw [hc] at hge
        simp at hge
        omega
      have hlen0 : ((windowRats arr window i).length : ℚ) ≠ 0 := by
        simp [List.length_eq_zero]
        exact hne
      rw [hkey, if_pos hge]
      rw [foldl_jadd_map_num, zero_add]
      rw [jdiv_num _ _ hlen0]

unseal Rat.add Rat.mul Rat.inv Rat.sub in
/-- C1 counterexample: the all-zero probability triple is non-negative,
yet the ensemble divides by the zero sum of the averages, so every
returned probability is `NaN` (their sum is not 1), `indexOf` fails and
the class is `-1` with an `undefined` class name and confidence — not the
arg-max record the claim promises. -/
theorem c1_ensemble_counterexample :
    ensembleCryptoPredictions [[JVal.num 0, JVal.num 0, JVal.num 0]] =
      .ok { cls := -1, className := none, confidence := .undef,
            probDown := .nan, probNeutral := .nan, probUp := .nan,
            modelsUsed := 1 } := rfl

unseal Rat.add Rat.mul Rat.inv Rat.sub in
/-- Witness for C1 at the spec's own two-model example
`[[0.9, 0.05, 0.05], [0.1, 0.1, 0.8]]`. -/
theorem c1_ensemble_spec_witness :
    ∃ r, ensembleCryptoPredictions
        ([((9 : ℚ)/10, (1 : ℚ)/20, (1 : ℚ)/20),
          ((1 : ℚ)/10, (1 : ℚ)/10, (8 : ℚ)/10)].map
          fun t => [JVal.num t.1, JVal.num t.2.1, JVal.num t.2.2]) = .ok r ∧
      r.modelsUsed = 2 := by
  obtain ⟨r, hr, pd, pn, pu, _, _, _, _, _, _, _, _, h9, _, _, _⟩ :=
    c1_ensemble_spec
      [((9 : ℚ)/10, (1 : ℚ)/20, (1 : ℚ)/20),
        ((1 : ℚ)/10, (1 : ℚ)/10, (8 : ℚ)/10)]
      (by simp) (by norm_num [List.sum_cons, List.sum_nil])
  exact ⟨r, hr, by rw [h9]; rfl⟩

unseal Rat.add Rat.mul Rat.inv Rat.sub in
/-- C7 counterexample: `rollingWindow` with op `mean` and no explicit
`minPeriods` on a single-sample series with `window = 2` produces a value
even though only ONE valid sample (fewer than `window`) is in the window —
the claimed default threshold `window` for mean does not hold (the code
uses `⌊window / 2⌋ = 1`). -/
theorem c7_rolling_default_counterexample :
    rollingWindow id [JVal.num 1] 2 none Op.mean = [JVal.num 1] ∧
    ((windowSlice [JVal.num 1] 2 0).filter isValidSample).length = 1 ∧
    (1 : ℕ) < 2 :=
  ⟨rfl, rfl, by decide⟩

/-- Witness for C7 at a concrete series, window and position. -/
theorem c7_rolling_default_spec_witness :
    (rollingWindow id [JVal.num 1, JVal.num 2, JVal.num 3] 2 none
      Op.sum).getD 2 .undef =
      .num (windowRats [JVal.num 1, JVal.num 2, JVal.num 3] 2 2).sum := by
  have hv : ∀ v ∈ [JVal.num 1, JVal.num 2, JVal.num 3],
      v = JVal.null ∨ v = JVal.nan ∨ ∃ q : ℚ, v = JVal.num q := by
    intro v hv
    simp only [List.mem_cons, List.not_mem_nil, or_false] at hv
    rcases hv with rfl | rfl | rfl
    · exact Or.inr (Or.inr ⟨1, rfl⟩)
    · exact Or.inr (Or.inr ⟨2, rfl⟩)
    · exact Or.inr (Or.inr ⟨3, rfl⟩)
  have h := (c7_rolling_default_spec.1 id [JVal.num 1, JVal.num 2, JVal.num 3]
    2 Op.sum 2 (by decide) hv (by decide)).2 (by decide)
  exact h.2.1 rfl

end TradingModels
